import Mathlib

/-!
# first-promoter-go: the `TrackSignUp` client operation

A shallow embedding of `firstpromoter/v2/client.go` and
`firstpromoter/v2/track-sign-up.go`.

* Go strings and byte slices are sequences of octets (`GoString`).
* The calls into the Go standard library whose result depends on text that is
  not fixed by the program (`encoding/json`, `time`) are the fields of
  `StdLib`; `TrackSignUp` is a function of such a library, and the general
  theorems hold for every one. `refLib` is an executable instance.
* `*http.Client` is a function from the request to an error or a response,
  or `none` for the nil pointer.
* The value of `TrackSignUp` records the requests handed to the HTTP client
  together with what the call returns.
-/

set_option autoImplicit false

namespace FirstPromoter

/-! ## Strings -/

/-- One octet. -/
abbrev Byte := UInt8

/-- A Go `string` (or `[]byte`): a sequence of octets. -/
abbrev GoString := List Byte

/-- The Go string literal with the given text (UTF-8 encoded). -/
def str (s : String) : GoString := s.toList.flatMap String.utf8EncodeChar

/-! ## Data model -/

/-- An instant of `time.Time`: whole seconds since January 1, year 1,
00:00:00 UTC, and nanoseconds within the second. -/
structure Time where
  sec : Int
  nsec : Nat
  deriving DecidableEq, Repr

/-- The zero value `time.Time{}`: January 1, year 1, 00:00:00 UTC. -/
def Time.zero : Time := ⟨0, 0⟩

/-- A `context.Context` value; `TrackSignUp` only passes it on to the request. -/
structure Context where
  tag : Nat
  deriving DecidableEq, Repr

/-- The struct `TrackSignUpInput`: every field is a pointer, `none` is nil. -/
structure TrackSignUpInput where
  Uid : Option GoString := none
  Email : Option GoString := none
  Tid : Option GoString := none
  RefId : Option GoString := none
  Ip : Option GoString := none
  CreatedAt : Option Time := none
  SkipEmailNotification : Option Bool := none
  deriving DecidableEq, Repr

/-- The struct `Referral`. -/
structure Referral where
  Id : GoString
  Email : Option GoString
  Uid : Option GoString
  deriving DecidableEq, Repr

/-- The struct `TrackSignUpOutput`. -/
structure TrackSignUpOutput where
  Id : Int
  Etype : GoString
  SaleAmount : Option Int
  OriginalSaleAmount : Option Int
  OriginalSaleCurrency : Option GoString
  EventId : Option GoString
  PlanId : Option GoString
  BillingPeriod : Option GoString
  CreatedAt : Time
  Referral : Referral
  deriving DecidableEq, Repr

/-- The local `reqBody` struct of `TrackSignUp`, in the order of its fields. -/
structure ReqBody where
  Email : GoString
  Uid : GoString
  Tid : GoString
  RefId : GoString
  Ip : GoString
  CreatedAt : GoString
  SkipEmailNotification : Bool
  deriving DecidableEq, Repr

/-- The zero value of `reqBody` (`var reqBody struct{...}`). -/
def ReqBody.zero : ReqBody := ⟨[], [], [], [], [], [], false⟩

/-- The local `respBody` struct of `TrackSignUp`. -/
structure RespBody where
  Id : Int
  Etype : GoString
  SaleAmount : Option Int
  OriginalSaleAmount : Option Int
  OriginalSaleCurrency : Option GoString
  EventId : Option GoString
  PlanId : Option GoString
  BillingPeriod : Option GoString
  CreatedAt : GoString
  Referral : Referral
  deriving DecidableEq, Repr

/-- The zero value of `respBody` (`var respBody struct{...}`). -/
def RespBody.zero : RespBody :=
  ⟨0, [], none, none, none, none, none, none, [], ⟨[], none, none⟩⟩

/-! ## net/http -/

/-- An `http.Header` as built by `Set` alone: canonical key, single value. -/
abbrev Header := List (GoString × GoString)

/-- An `http.Request` as far as `TrackSignUp` fills it in. -/
structure Request where
  ctx : Context
  Method : GoString
  URL : GoString
  Header : Header
  Body : List Byte
  deriving DecidableEq, Repr

/-- An `http.Response` as far as `TrackSignUp` reads it. `Body` is the content
the body stream delivers. -/
structure Response where
  StatusCode : Int
  Status : GoString
  Body : List Byte
  deriving DecidableEq, Repr

/-- The method `Do` of an `http.Client`: the transport error or the response. -/
structure HttpClient where
  Do : Request → Except GoString Response

/-- The struct `Client`: the field `client` is a `*http.Client`, `none` when
nil. -/
structure Client where
  accountId : GoString
  apiKey : GoString
  client : Option HttpClient

/-- The constructor `New`: it stores its three arguments. -/
def New (accountId : GoString) (apiKey : GoString) (client : Option HttpClient) : Client :=
  let handler : Client := { accountId := accountId, apiKey := apiKey, client := client }
  handler

/-- The function `validHeaderFieldByte` of `textproto`: the token characters
of RFC 7230 (digits, letters and ``!#$%&'*+-.^_`|~``). -/
def validHeaderFieldByte (c : Byte) : Bool :=
  (48 ≤ c && c ≤ 57) || (65 ≤ c && c ≤ 90) || (97 ≤ c && c ≤ 122) ||
    [33, 35, 36, 37, 38, 39, 42, 43, 45, 46, 94, 95, 96, 124, 126].contains c

/-- The canonicalising loop of `textproto.CanonicalMIMEHeaderKey`: upper case
for the first letter and for a letter after a dash, lower case elsewhere. -/
def canonLoop : Bool → GoString → GoString
  | _, [] => []
  | upper, c :: rest =>
    let c1 : Byte :=
      if upper && 97 ≤ c && c ≤ 122 then c - 32
      else if !upper && 65 ≤ c && c ≤ 90 then c + 32
      else c
    c1 :: canonLoop (c1 == 45) rest

/-- The function `textproto.CanonicalMIMEHeaderKey`: a key with a byte that is no token
character is returned as it is. -/
def CanonicalMIMEHeaderKey (s : GoString) : GoString :=
  if s.all validHeaderFieldByte then canonLoop true s else s

/-- The method `Header.Set`: the key is canonicalised and its value replaced. -/
def Header.Set (h : Header) (key value : GoString) : Header :=
  (CanonicalMIMEHeaderKey key, value) ::
    h.filter (fun kv => kv.1 != CanonicalMIMEHeaderKey key)

/-- The method `Header.Get`: the value under the canonicalised key, `none` when there is
none. -/
def Header.Get (h : Header) (key : GoString) : Option GoString :=
  (h.find? (fun kv => kv.1 == CanonicalMIMEHeaderKey key)).map Prod.snd

/-- The constant `http.MethodPost`. -/
def MethodPost : GoString := str "POST"

/-- The endpoint of `TrackSignUp`. -/
def signupURL : GoString := str "https://v2.firstpromoter.com/api/v2/track/signup"

/-- The function `http.NewRequestWithContext` on a valid method and URL: it fails on a nil
context only, and the new request has no header. -/
def NewRequestWithContext (ctx : Option Context) (method url : GoString)
    (body : List Byte) : Except GoString Request :=
  match ctx with
  | none => .error (str "net/http: nil Context")
  | some k => .ok { ctx := k, Method := method, URL := url, Header := [], Body := body }

/-! ## The standard library -/

/-- What `Decoder.Decode(&respBody)` leaves behind on the zero `respBody`. -/
inductive DecodeResult where
  /-- A nil error: the struct after the first JSON value of the stream was
  stored into it. -/
  | ok (v : RespBody)
  /-- The error `io.EOF`: the stream held no value, the struct is untouched. -/
  | eof
  /-- Any other error, with its message. -/
  | fail (msg : GoString)
  deriving DecidableEq, Repr

/-- The library calls of `TrackSignUp` whose result depends on text. -/
structure StdLib where
  /-- The JSON text `encoding/json` writes for a Go string value. -/
  jsonString : GoString → List Byte
  /-- The value of `t.UTC().Format(time.RFC3339)`. -/
  formatRFC3339UTC : Time → GoString
  /-- The call `json.NewDecoder(body).Decode(&respBody)`. -/
  decode : List Byte → DecodeResult
  /-- The call `time.Parse(time.RFC3339, s)`: the instant, or the error
  message (Go returns `time.Time{}` along with every error). -/
  timeParse : GoString → Except GoString Time

/-! ## encoding/json on `reqBody` -/

/-- The Go value of a field of the request struct that is marshalled. -/
inductive JsonValue where
  | string (s : GoString)
  | bool (b : Bool)
  deriving DecidableEq, Repr

/-- A string field tagged `omitempty`: no member when the string is empty. -/
def omitEmpty (key : GoString) (v : GoString) : List (GoString × JsonValue) :=
  if v.isEmpty then [] else [(key, .string v)]

/-- The fields `json.Marshal(reqBody)` writes as members, with their Go
values: the fields in the order of the struct, under the keys of their tags,
without the `omitempty` strings that are empty. -/
def marshalMembers (b : ReqBody) : List (GoString × JsonValue) :=
  omitEmpty (str "email") b.Email ++
  omitEmpty (str "uid") b.Uid ++
  omitEmpty (str "tid") b.Tid ++
  omitEmpty (str "ref_id") b.RefId ++
  omitEmpty (str "ip") b.Ip ++
  omitEmpty (str "created_at") b.CreatedAt ++
  [(str "skip_email_notification", .bool b.SkipEmailNotification)]

/-- The JSON text of a member value. -/
def renderValue (lib : StdLib) : JsonValue → List Byte
  | .string s => lib.jsonString s
  | .bool true => str "true"
  | .bool false => str "false"

/-- The JSON text of one member: the quoted key, a colon, the value. -/
def renderMember (lib : StdLib) (m : GoString × JsonValue) : List Byte :=
  str "\x22" ++ m.1 ++ str "\x22:" ++ renderValue lib m.2

/-- The JSON text of an object: members separated by commas, in braces. -/
def renderObject (lib : StdLib) (ms : List (GoString × JsonValue)) : List Byte :=
  str "\x7b" ++ (str ",").intercalate (ms.map (renderMember lib)) ++ str "\x7d"

/-- The bytes of `json.Marshal(reqBody)`; for this struct it has no error. -/
def jsonMarshal (lib : StdLib) (b : ReqBody) : List Byte :=
  renderObject lib (marshalMembers b)

/-! ## TrackSignUp -/

/-- Lines 60 to 86: the fields of the input that are not nil are copied into
`reqBody`, one `if` after the other. -/
def buildReqBody (lib : StdLib) (input : TrackSignUpInput) : ReqBody :=
  let reqBody := ReqBody.zero
  let reqBody := match input.Uid with
    | some v => { reqBody with Uid := v }
    | none => reqBody
  let reqBody := match input.Email with
    | some v => { reqBody with Email := v }
    | none => reqBody
  let reqBody := match input.Tid with
    | some v => { reqBody with Tid := v }
    | none => reqBody
  let reqBody := match input.RefId with
    | some v => { reqBody with RefId := v }
    | none => reqBody
  let reqBody := match input.Ip with
    | some v => { reqBody with Ip := v }
    | none => reqBody
  let reqBody := match input.CreatedAt with
    | some t => { reqBody with CreatedAt := lib.formatRFC3339UTC t }
    | none => reqBody
  let reqBody := match input.SkipEmailNotification with
    | some b => { reqBody with SkipEmailNotification := b }
    | none => reqBody
  reqBody

/-- The serialized request body of an input. -/
def requestBody (lib : StdLib) (input : TrackSignUpInput) : List Byte :=
  jsonMarshal lib (buildReqBody lib input)

/-- Lines 97 to 99: the three `req.Header.Set` calls. -/
def setHeaders (client : Client) (req : Request) : Request :=
  let req := { req with Header := req.Header.Set (str "Content-Type") (str "application/json") }
  let req := { req with Header := req.Header.Set (str "ACCOUNT-ID") client.accountId }
  let req := { req with Header := req.Header.Set (str "Authorization") (str "Bearer " ++ client.apiKey) }
  req

/-- How a call of `TrackSignUp` ends. -/
inductive Outcome where
  /-- It returns the pair `(output, err)`; `none` is nil. -/
  | returned (out : Option TrackSignUpOutput) (err : Option GoString)
  /-- It panics: `client.client` is nil when `Do` is called on it. -/
  | panicked
  deriving DecidableEq, Repr

/-- A call of `TrackSignUp`: the requests handed to `client.client.Do`, in
order, and the outcome. -/
structure Run where
  sent : List Request
  outcome : Outcome
  deriving DecidableEq, Repr

/-- The size given to `io.LimitReader`: `8<<10`. -/
def slurpLimit : Nat := 8 <<< 10

/-- Lines 107 to 110: the error returned for a status outside [200, 300). -/
def statusError (resp : Response) : GoString :=
  let slurp := resp.Body.take slurpLimit
  str "signup: unexpected status " ++ resp.Status ++ str ": " ++ slurp

/-- Lines 112 to 144: what `TrackSignUp` returns on a response whose status
is in [200, 300). -/
def readResponse (lib : StdLib) (resp : Response) : Outcome :=
  match lib.decode resp.Body with
  | .fail e => .returned none (some (str "decode response: " ++ e))
  | d =>
    let respBody : RespBody := match d with
      | .ok v => v
      | _ => RespBody.zero
    let parsed : Time × Option GoString := match lib.timeParse respBody.CreatedAt with
      | .ok t => (t, none)
      | .error e => (Time.zero, some e)
    let createdAt := parsed.1
    let err := parsed.2
    if err == none then
      .returned none (some (str "Error parsing CreatedAt"))
    else
      .returned (some {
        Id := respBody.Id
        Etype := respBody.Etype
        SaleAmount := respBody.SaleAmount
        OriginalSaleAmount := respBody.OriginalSaleAmount
        OriginalSaleCurrency := respBody.OriginalSaleCurrency
        EventId := respBody.EventId
        PlanId := respBody.PlanId
        BillingPeriod := respBody.BillingPeriod
        CreatedAt := createdAt
        Referral := respBody.Referral }) none

/-- The method `Client.TrackSignUp`: the request is built and sent, the status
checked, the body decoded and the output built. A nil context ends the call
at `NewRequestWithContext`, a nil HTTP client at `Do`. -/
def TrackSignUp (lib : StdLib) (client : Client) (ctx : Option Context)
    (input : TrackSignUpInput) : Run :=
  let reqBodyBytes := requestBody lib input
  match NewRequestWithContext ctx MethodPost signupURL reqBodyBytes with
  | .error e => ⟨[], .returned none (some (str "build request: " ++ e))⟩
  | .ok req =>
    let req := setHeaders client req
    match client.client with
    | none => ⟨[], .panicked⟩
    | some c =>
      match c.Do req with
      | .error e => ⟨[req], .returned none (some (str "http do: " ++ e))⟩
      | .ok resp =>
        if resp.StatusCode < 200 || resp.StatusCode >= 300 then
          ⟨[req], .returned none (some (statusError resp))⟩
        else
          ⟨[req], readResponse lib resp⟩

/-! ## A reference instance of the library -/

/-- A continuation byte of UTF-8: `10xxxxxx`. -/
def isCont (b : Byte) : Bool := 0x80 ≤ b && b ≤ 0xBF

/-- The length in bytes of the UTF-8 encoding at the head of the input, or
`0` when the head is not a valid encoding (the cases of `utf8.DecodeRune`:
no overlong form, no surrogate, nothing above U+10FFFF). -/
def utf8Len : List Byte → Nat
  | [] => 0
  | b0 :: rest =>
    if b0 < 0x80 then 1
    else match rest with
      | b1 :: rest1 =>
        if 0xC2 ≤ b0 && b0 ≤ 0xDF then (if isCont b1 then 2 else 0)
        else match rest1 with
          | b2 :: rest2 =>
            if b0 == 0xE0 then (if 0xA0 ≤ b1 && b1 ≤ 0xBF && isCont b2 then 3 else 0)
            else if b0 == 0xED then (if 0x80 ≤ b1 && b1 ≤ 0x9F && isCont b2 then 3 else 0)
            else if 0xE1 ≤ b0 && b0 ≤ 0xEF then (if isCont b1 && isCont b2 then 3 else 0)
            else match rest2 with
              | b3 :: _ =>
                if b0 == 0xF0 then
                  (if 0x90 ≤ b1 && b1 ≤ 0xBF && isCont b2 && isCont b3 then 4 else 0)
                else if b0 == 0xF4 then
                  (if 0x80 ≤ b1 && b1 ≤ 0x8F && isCont b2 && isCont b3 then 4 else 0)
                else if 0xF1 ≤ b0 && b0 ≤ 0xF3 then
                  (if isCont b1 && isCont b2 && isCont b3 then 4 else 0)
                else 0
              | [] => 0
          | [] => 0
      | [] => 0

/-- A lower-case hexadecimal digit. -/
def hexDigit (n : Nat) : Byte :=
  if n < 10 then (48 + n).toUInt8 else (87 + n).toUInt8

/-- The escape `encoding/json` writes for an ASCII byte that it does not copy
(with `EscapeHTML` on, as in `json.Marshal`). -/
def escapeByte (b : Byte) : List Byte :=
  if b == 0x22 then str "\\\x22"
  else if b == 0x5C then str "\\\\"
  else if b == 0x08 then str "\\b"
  else if b == 0x0C then str "\\f"
  else if b == 0x0A then str "\\n"
  else if b == 0x0D then str "\\r"
  else if b == 0x09 then str "\\t"
  else str "\\u00" ++ [hexDigit (b.toNat / 16), hexDigit (b.toNat % 16)]

/-- The bytes `encoding/json` copies as they are: `htmlSafeSet`. -/
def htmlSafe (b : Byte) : Bool :=
  0x20 ≤ b && b < 0x80 && b != 0x22 && b != 0x5C && b != 0x3C && b != 0x3E && b != 0x26

/-- The inside of a JSON string as `encoding/json` writes it; the first
argument bounds the number of steps. -/
def escapeString : Nat → List Byte → List Byte
  | 0, _ => []
  | _, [] => []
  | fuel + 1, b :: rest =>
    if b < 0x80 then
      (if htmlSafe b then [b] else escapeByte b) ++ escapeString fuel rest
    else
      let n := utf8Len (b :: rest)
      if n == 0 then str "\\ufffd" ++ escapeString fuel rest
      else if (b :: rest).take 3 == [0xE2, 0x80, 0xA8] then
        str "\\u2028" ++ escapeString fuel (rest.drop 2)
      else if (b :: rest).take 3 == [0xE2, 0x80, 0xA9] then
        str "\\u2029" ++ escapeString fuel (rest.drop 2)
      else (b :: rest).take n ++ escapeString fuel (rest.drop (n - 1))

/-- The JSON text of a Go string. -/
def jsonString (s : GoString) : List Byte :=
  [0x22] ++ escapeString s.length s ++ [0x22]

/-! ### time -/

/-- Leap years of the proleptic Gregorian calendar. -/
def isLeap (year : Int) : Bool :=
  year % 4 == 0 && (year % 100 != 0 || year % 400 == 0)

/-- The function `daysIn` of package `time`. -/
def daysIn (month : Nat) (year : Int) : Nat :=
  if month == 2 then (if isLeap year then 29 else 28)
  else if month == 4 || month == 6 || month == 9 || month == 11 then 30
  else 31

/-- Days from January 1, year 1 to the given date of the proleptic Gregorian
calendar (month 1 to 12, day from 1). -/
def daysFromCivil (year : Int) (month day : Nat) : Int :=
  let y : Int := if month ≤ 2 then year - 1 else year
  let era : Int := y / 400
  let yoe : Int := y - era * 400
  let mp : Int := ((month : Int) + 9) % 12
  let doy : Int := (153 * mp + 2) / 5 + (day : Int) - 1
  let doe : Int := yoe * 365 + yoe / 4 - yoe / 100 + doy
  era * 146097 + doe - 306

/-- The date (year, month, day) that lies the given number of days after
January 1, year 1. -/
def civilFromDays (days : Int) : Int × Nat × Nat :=
  let z : Int := days + 306
  let era : Int := z / 146097
  let doe : Int := z - era * 146097
  let yoe : Int := (doe - doe / 1460 + doe / 36524 - doe / 146096) / 365
  let doy : Int := doe - (365 * yoe + yoe / 4 - yoe / 100)
  let mp : Int := (5 * doy + 2) / 153
  let d : Int := doy - (153 * mp + 2) / 5 + 1
  let m : Int := if mp < 10 then mp + 3 else mp - 9
  let y : Int := yoe + era * 400
  (if m ≤ 2 then y + 1 else y, m.toNat, d.toNat)

/-- The decimal digits of a number, no shorter than the given width. -/
def padDigits (width : Nat) (n : Nat) : List Byte :=
  let ds := (Nat.toDigits 10 n).map (fun c => c.toNat.toUInt8)
  List.replicate (width - ds.length) 48 ++ ds

/-- The function `appendInt` of package `time`. -/
def appendInt (x : Int) (width : Nat) : List Byte :=
  if x < 0 then 45 :: padDigits width x.natAbs else padDigits width x.natAbs

/-- The constant `internalToAbsolute` of package `time`: the seconds from
January 1 of the year -292277022399 (the absolute zero year) to January 1 of
the year 1. -/
def internalToAbsolute : Int := 9223371966579724800

/-- The method `Time.abs` in UTC: the seconds since the absolute zero year as
a `uint64`; for an instant before that year the number wraps around. -/
def absSeconds (t : Time) : Nat := ((t.sec + internalToAbsolute) % 2 ^ 64).toNat

/-- The text of `t.UTC().Format(time.RFC3339)`: date and clock are computed
from the unsigned absolute seconds, as `Time.Format` does. -/
def formatRFC3339UTC (t : Time) : GoString :=
  let abs := absSeconds t
  let days : Int := (abs / 86400 : Nat) - internalToAbsolute / 86400
  let rem := abs % 86400
  let ymd := civilFromDays days
  appendInt ymd.1 4 ++ str "-" ++ padDigits 2 ymd.2.1 ++ str "-" ++ padDigits 2 ymd.2.2 ++
    str "T" ++ padDigits 2 (rem / 3600) ++ str ":" ++ padDigits 2 (rem % 3600 / 60) ++
    str ":" ++ padDigits 2 (rem % 60) ++ str "Z"

/-- The value of an ASCII decimal digit. -/
def digitVal (b : Byte) : Option Nat :=
  if 48 ≤ b && b ≤ 57 then some (b.toNat - 48) else none

/-- The value of a sequence of decimal digits; `none` when it is empty or
holds another byte. -/
def digitsVal : List Byte → Option Nat
  | [] => none
  | bs => bs.foldl (fun acc b => acc.bind (fun n => (digitVal b).map (fun d => 10 * n + d))) (some 0)

/-- The function `getnum` of package `time`: a number of one or two digits,
of two digits exactly when `fixed`. -/
def getnum (s : List Byte) (fixed : Bool) : Option (Nat × List Byte) :=
  match s with
  | [] => none
  | b0 :: rest =>
    match digitVal b0 with
    | none => none
    | some d0 =>
      match rest.head?.bind digitVal with
      | some d1 => some (d0 * 10 + d1, rest.drop 1)
      | none => if fixed then none else some (d0, rest)

/-- The input after a literal byte of the layout. -/
def expectByte (c : Byte) : List Byte → Option (List Byte)
  | b :: rest => if b == c then some rest else none
  | [] => none

/-- The fraction of a second that may follow the seconds: a period or comma
and digits, of which nine count (`parseNanoseconds`). -/
def parseFraction (s : List Byte) : Option (Nat × List Byte) :=
  match s with
  | sep :: d :: rest =>
    if (sep == 46 || sep == 44) && (digitVal d).isSome then
      let ds := (d :: rest).takeWhile (fun b => (digitVal b).isSome)
      let used := ds.take 9
      (digitsVal used).map (fun n => (n * 10 ^ (9 - used.length), (d :: rest).drop ds.length))
    else some (0, s)
  | _ => some (0, s)

/-- The zone of layout element `Z07:00`: the offset in seconds east of UTC. -/
def parseZone (s : List Byte) : Option (Int × List Byte) :=
  match s with
  | 90 :: rest => some (0, rest)
  | sign :: h0 :: h1 :: c :: m0 :: m1 :: rest =>
    if c != 58 then none
    else match getnum [h0, h1] true, getnum [m0, m1] true with
      | some (hr, _), some (mm, _) =>
        if hr > 24 || mm > 60 then none
        else if sign == 43 then some (((hr * 60 + mm) * 60 : Nat), rest)
        else if sign == 45 then some (-(((hr * 60 + mm) * 60 : Nat) : Int), rest)
        else none
      | _, _ => none
  | _ => none

/-- A number of two digits followed by the byte `sep`, below `bound`. -/
def fieldThen (sep : Byte) (fixed : Bool) (bound : Nat) (s : List Byte) :
    Option (Nat × List Byte) :=
  match getnum s fixed with
  | none => none
  | some (n, rest) =>
    if n < bound then (expectByte sep rest).map (fun r => (n, r)) else none

/-- The date `2006-01-02T` at the head of the input: year, month, day (the
day is checked against the month later, as in `time.Parse`). -/
def parseDate (s : GoString) : Option ((Nat × Nat × Nat) × List Byte) :=
  if (s.take 4).length != 4 then none
  else match digitsVal (s.take 4) with
    | none => none
    | some year =>
      match expectByte 45 (s.drop 4) with
      | none => none
      | some s1 =>
        match fieldThen 45 true 13 s1 with
        | none => none
        | some (month, s2) =>
          if month == 0 then none
          else match getnum s2 true with
            | none => none
            | some (day, s3) => (expectByte 84 s3).map (fun r => ((year, month, day), r))

/-- The clock `15:04:05` at the head of the input, in seconds of the day. -/
def parseClock (s : List Byte) : Option (Nat × List Byte) :=
  match fieldThen 58 false 24 s with
  | none => none
  | some (hour, s1) =>
    match fieldThen 58 true 60 s1 with
    | none => none
    | some (min, s2) =>
      match getnum s2 true with
      | none => none
      | some (sec, s3) => if sec < 60 then some (hour * 3600 + min * 60 + sec, s3) else none

/-- The fraction and the zone that end the text: nanoseconds and offset. -/
def parseTail (s : List Byte) : Option (Nat × Int) :=
  match parseFraction s with
  | none => none
  | some (nsec, s1) =>
    match parseZone s1 with
    | none => none
    | some (zoneOffset, s2) => if s2.isEmpty then some (nsec, zoneOffset) else none

/-- The instant of `time.Parse(time.RFC3339, s)`: layout
`2006-01-02T15:04:05Z07:00`, an hour of one or two digits, an optional
fraction after the seconds, nothing after the zone. -/
def parseRFC3339 (s : GoString) : Option Time :=
  match parseDate s with
  | none => none
  | some (ymd, s1) =>
    match parseClock s1 with
    | none => none
    | some (clock, s2) =>
      match parseTail s2 with
      | none => none
      | some (nsec, zoneOffset) =>
        if 1 ≤ ymd.2.2 && ymd.2.2 ≤ daysIn ymd.2.1 ymd.1 then
          some ⟨daysFromCivil ymd.1 ymd.2.1 ymd.2.2 * 86400 + (clock : Int) - zoneOffset, nsec⟩
        else none

/-- The call `time.Parse(time.RFC3339, s)`, with a short error message. -/
def timeParse (s : GoString) : Except GoString Time :=
  match parseRFC3339 s with
  | some t => .ok t
  | none => .error (str "parsing time: cannot parse as RFC3339")

/-! ### encoding/json, decoding -/

/-- A JSON value as the decoder reads it; a number keeps its literal. -/
inductive JVal where
  | null
  | bool (b : Bool)
  | num (lit : List Byte)
  | string (s : GoString)
  | arr (xs : List JVal)
  | obj (ms : List (GoString × JVal))

/-- JSON white space: space, tab, carriage return, line feed. -/
def isSpace (b : Byte) : Bool := b == 32 || b == 9 || b == 13 || b == 10

/-- The input after its leading white space. -/
def skipSpace (s : List Byte) : List Byte := s.dropWhile isSpace

/-- The value of a hexadecimal digit. -/
def hexVal (b : Byte) : Option Nat :=
  if 48 ≤ b && b ≤ 57 then some (b.toNat - 48)
  else if 97 ≤ b && b ≤ 102 then some (b.toNat - 87)
  else if 65 ≤ b && b ≤ 70 then some (b.toNat - 55)
  else none

/-- The number written by four hexadecimal digits at the head of the input
(`getu4` without the leading backslash and `u`). -/
def hex4 (s : List Byte) : Option Nat :=
  match s with
  | a :: b :: c :: d :: _ =>
    match hexVal a, hexVal b, hexVal c, hexVal d with
    | some x, some y, some z, some w => some (((x * 16 + y) * 16 + z) * 16 + w)
    | _, _, _, _ => none
  | _ => none

/-- The UTF-8 encoding of a code point; U+FFFD for a surrogate or a number
above U+10FFFF (`utf8.EncodeRune`). -/
def encodeRune (r : Nat) : List Byte :=
  if r < 0x80 then [r.toUInt8]
  else if r < 0x800 then [(0xC0 + r / 64).toUInt8, (0x80 + r % 64).toUInt8]
  else if (0xD800 ≤ r && r < 0xE000) || 0x10FFFF < r then [0xEF, 0xBF, 0xBD]
  else if r < 0x10000 then
    [(0xE0 + r / 4096).toUInt8, (0x80 + r / 64 % 64).toUInt8, (0x80 + r % 64).toUInt8]
  else
    [(0xF0 + r / 262144).toUInt8, (0x80 + r / 4096 % 64).toUInt8,
      (0x80 + r / 64 % 64).toUInt8, (0x80 + r % 64).toUInt8]

/-- The rest of a JSON string after its opening quote: the unquoted content
(`unquoteBytes`) and the input after the closing quote; `none` when the
string is not well formed or not closed. -/
def scanString : Nat → List Byte → Option (GoString × List Byte)
  | 0, _ => none
  | _, [] => none
  | fuel + 1, b :: rest =>
    if b == 0x22 then some ([], rest)
    else if b < 0x20 then none
    else if b == 0x5C then
      match rest with
      | [] => none
      | e :: rest1 =>
        if e == 117 then
          match hex4 rest1 with
          | none => none
          | some r =>
            let rest2 := rest1.drop 4
            let low : Option Nat :=
              if rest2.take 2 == [0x5C, 117] then hex4 (rest2.drop 2) else none
            if 0xD800 ≤ r && r < 0xDC00 && (low.any (fun l => 0xDC00 ≤ l && l < 0xE000)) then
              (scanString fuel (rest2.drop 6)).map (fun p =>
                (encodeRune (0x10000 + (r - 0xD800) * 1024 + (low.getD 0 - 0xDC00)) ++ p.1, p.2))
            else
              (scanString fuel rest2).map (fun p => (encodeRune r ++ p.1, p.2))
        else
          let c : Option Byte :=
            if e == 0x22 || e == 0x5C || e == 0x2F then some e
            else if e == 98 then some 8
            else if e == 102 then some 12
            else if e == 110 then some 10
            else if e == 114 then some 13
            else if e == 116 then some 9
            else none
          match c with
          | none => none
          | some c => (scanString fuel rest1).map (fun p => (c :: p.1, p.2))
    else if b < 0x80 then
      (scanString fuel rest).map (fun p => (b :: p.1, p.2))
    else
      let n := utf8Len (b :: rest)
      if n == 0 then (scanString fuel rest).map (fun p => ([0xEF, 0xBF, 0xBD] ++ p.1, p.2))
      else (scanString fuel (rest.drop (n - 1))).map (fun p => ((b :: rest).take n ++ p.1, p.2))

/-- The digits at the head of the input and the input after them. -/
def spanDigits (s : List Byte) : List Byte × List Byte :=
  s.span (fun b => 48 ≤ b && b ≤ 57)

/-- A JSON number at the head of the input: its literal and the input after
it. A leading zero is a whole integer part. -/
def scanNumber (s : List Byte) : Option (List Byte × List Byte) :=
  let signed : List Byte × List Byte :=
    match s with
    | 45 :: r => ([45], r)
    | _ => ([], s)
  let digits := spanDigits signed.2
  if digits.1.isEmpty then none
  else
    let intPart : List Byte × List Byte :=
      if digits.1.head? == some 48 then ([48], signed.2.drop 1) else digits
    let frac : Option (List Byte × List Byte) :=
      match intPart.2 with
      | 46 :: r =>
        let ds := spanDigits r
        if ds.1.isEmpty then none else some (46 :: ds.1, ds.2)
      | _ => some ([], intPart.2)
    match frac with
    | none => none
    | some (fracLit, afterFrac) =>
      let exp : Option (List Byte × List Byte) :=
        match afterFrac with
        | e :: r =>
          if e == 101 || e == 69 then
            let sg : List Byte × List Byte :=
              match r with
              | c :: r1 => if c == 43 || c == 45 then ([c], r1) else ([], r)
              | [] => ([], r)
            let ds := spanDigits sg.2
            if ds.1.isEmpty then none else some (e :: sg.1 ++ ds.1, ds.2)
          else some ([], afterFrac)
        | [] => some ([], afterFrac)
      match exp with
      | none => none
      | some (expLit, rest) => some (signed.1 ++ intPart.1 ++ fracLit ++ expLit, rest)


/-- The nesting the scanner allows: `maxNestingDepth`. -/
def maxNestingDepth : Nat := 10000

mutual
/-- One JSON value at the head of the input (after white space) and the
input after it; `none` on a syntax error or an unfinished value. The first
argument bounds the number of steps, the second counts the open arrays and
objects. -/
def parseValue : Nat → Nat → List Byte → Option (JVal × List Byte)
  | 0, _, _ => none
  | fuel + 1, depth, s =>
    match skipSpace s with
    | [] => none
    | b :: rest =>
      if b == 0x22 then
        (scanString (rest.length + 1) rest).map (fun p => (JVal.string p.1, p.2))
      else if b == 0x7B then
        if depth ≥ maxNestingDepth then none
        else match skipSpace rest with
          | 0x7D :: rest1 => some (JVal.obj [], rest1)
          | _ => (parseMembers fuel (depth + 1) rest).map (fun p => (JVal.obj p.1, p.2))
      else if b == 0x5B then
        if depth ≥ maxNestingDepth then none
        else match skipSpace rest with
          | 0x5D :: rest1 => some (JVal.arr [], rest1)
          | _ => (parseElems fuel (depth + 1) rest).map (fun p => (JVal.arr p.1, p.2))
      else if (b :: rest).take 4 == str "true" then some (JVal.bool true, rest.drop 3)
      else if (b :: rest).take 5 == str "false" then some (JVal.bool false, rest.drop 4)
      else if (b :: rest).take 4 == str "null" then some (JVal.null, rest.drop 3)
      else (scanNumber (b :: rest)).map (fun p => (JVal.num p.1, p.2))
/-- The elements of an array that is not empty, up to its closing bracket. -/
def parseElems : Nat → Nat → List Byte → Option (List JVal × List Byte)
  | 0, _, _ => none
  | fuel + 1, depth, s =>
    match parseValue fuel depth s with
    | none => none
    | some (v, rest) =>
      match skipSpace rest with
      | 0x5D :: rest1 => some ([v], rest1)
      | 0x2C :: rest1 => (parseElems fuel depth rest1).map (fun p => (v :: p.1, p.2))
      | _ => none
/-- The members of an object that is not empty, up to its closing brace. -/
def parseMembers : Nat → Nat → List Byte → Option (List (GoString × JVal) × List Byte)
  | 0, _, _ => none
  | fuel + 1, depth, s =>
    match skipSpace s with
    | 0x22 :: rest =>
      match scanString (rest.length + 1) rest with
      | none => none
      | some (key, rest1) =>
        match skipSpace rest1 with
        | 0x3A :: rest2 =>
          match parseValue fuel depth rest2 with
          | none => none
          | some (v, rest3) =>
            match skipSpace rest3 with
            | 0x7D :: rest4 => some ([(key, v)], rest4)
            | 0x2C :: rest4 =>
              (parseMembers fuel depth rest4).map (fun p => ((key, v) :: p.1, p.2))
            | _ => none
        | _ => none
    | _ => none
end

/-- The key of a member folded for the comparison with an ASCII field name:
letters in lower case, and U+017F and U+212A as the `s` and `k` they fold to
(`foldName`). -/
def foldKey : Nat → GoString → GoString
  | 0, _ => []
  | _, [] => []
  | fuel + 1, b :: rest =>
    if 65 ≤ b && b ≤ 90 then (b + 32) :: foldKey fuel rest
    else if (b :: rest).take 2 == [0xC5, 0xBF] then 115 :: foldKey fuel (rest.drop 1)
    else if (b :: rest).take 3 == [0xE2, 0x84, 0xAA] then 107 :: foldKey fuel (rest.drop 2)
    else b :: foldKey fuel rest

/-- The value of a number literal stored into a Go `int` (64 bits): `none`
for a literal with a fraction or an exponent, or out of range. -/
def parseInt64 (lit : List Byte) : Option Int :=
  let neg := lit.head? == some 45
  match digitsVal (if neg then lit.drop 1 else lit) with
  | none => none
  | some n =>
    let v : Int := if neg then -(n : Int) else (n : Int)
    if -(2 : Int) ^ 63 ≤ v && v < (2 : Int) ^ 63 then some v else none

/-- A JSON value stored into an `int` field; `none` is an
`UnmarshalTypeError`. -/
def storeInt (v : JVal) (cur : Int) : Option Int :=
  match v with
  | .null => some cur
  | .num lit => parseInt64 lit
  | _ => none

/-- A JSON value stored into an `*int` field. -/
def storeIntPtr (v : JVal) : Option (Option Int) :=
  match v with
  | .null => some none
  | .num lit => (parseInt64 lit).map some
  | _ => none

/-- A JSON value stored into a `string` field. -/
def storeString (v : JVal) (cur : GoString) : Option GoString :=
  match v with
  | .null => some cur
  | .string s => some s
  | _ => none

/-- A JSON value stored into a `*string` field. -/
def storeStringPtr (v : JVal) : Option (Option GoString) :=
  match v with
  | .null => some none
  | .string s => some (some s)
  | _ => none

/-- One member of an object stored into a `Referral`; a key that names no
field is skipped. -/
def storeReferralMember (r : Referral) (m : GoString × JVal) : Option Referral :=
  let key := foldKey m.1.length m.1
  if key == str "id" then (storeString m.2 r.Id).map (fun x => { r with Id := x })
  else if key == str "email" then (storeStringPtr m.2).map (fun x => { r with Email := x })
  else if key == str "uid" then (storeStringPtr m.2).map (fun x => { r with Uid := x })
  else some r

/-- A JSON value stored into the field `Referral`. -/
def storeReferral (v : JVal) (cur : Referral) : Option Referral :=
  match v with
  | .null => some cur
  | .obj ms => ms.foldl (fun acc m => acc.bind (fun r => storeReferralMember r m)) (some cur)
  | _ => none

/-- One member of the top-level object stored into `respBody`. -/
def storeMember (rb : RespBody) (m : GoString × JVal) : Option RespBody :=
  let key := foldKey m.1.length m.1
  if key == str "id" then (storeInt m.2 rb.Id).map (fun x => { rb with Id := x })
  else if key == str "etype" then (storeString m.2 rb.Etype).map (fun x => { rb with Etype := x })
  else if key == str "sale_amount" then
    (storeIntPtr m.2).map (fun x => { rb with SaleAmount := x })
  else if key == str "original_sale_amount" then
    (storeIntPtr m.2).map (fun x => { rb with OriginalSaleAmount := x })
  else if key == str "original_sale_currency" then
    (storeStringPtr m.2).map (fun x => { rb with OriginalSaleCurrency := x })
  else if key == str "event_id" then (storeStringPtr m.2).map (fun x => { rb with EventId := x })
  else if key == str "plan_id" then (storeStringPtr m.2).map (fun x => { rb with PlanId := x })
  else if key == str "billing_period" then
    (storeStringPtr m.2).map (fun x => { rb with BillingPeriod := x })
  else if key == str "created_at" then
    (storeString m.2 rb.CreatedAt).map (fun x => { rb with CreatedAt := x })
  else if key == str "referral" then
    (storeReferral m.2 rb.Referral).map (fun x => { rb with Referral := x })
  else some rb

/-- The call `json.NewDecoder(body).Decode(&respBody)` on the zero `respBody`:
`io.EOF` on a stream of white space alone; otherwise the first value of the
stream is read (what follows it is left unread) and stored, `null` storing
nothing and any value but an object or `null` being a type error. Error
messages are shortened. -/
def decode (body : List Byte) : DecodeResult :=
  if (skipSpace body).isEmpty then .eof
  else match parseValue (body.length + 1) 0 body with
    | none => .fail (str "json: invalid or unfinished value")
    | some (.null, _) => .ok RespBody.zero
    | some (.obj ms, _) =>
      match ms.foldl (fun acc m => acc.bind (fun rb => storeMember rb m)) (some RespBody.zero) with
      | some rb => .ok rb
      | none => .fail (str "json: cannot unmarshal value into Go struct field")
    | some (_, _) => .fail (str "json: cannot unmarshal value into Go value")

/-- An executable instance of the library: `encoding/json` and `time` as
documented, with shortened error messages. -/
def refLib : StdLib :=
  { jsonString := jsonString
    formatRFC3339UTC := formatRFC3339UTC
    decode := decode
    timeParse := timeParse }


/-! ## Notions used by the statements -/

/-- The keys of the JSON object sent for an input, in order. -/
def bodyKeys (lib : StdLib) (input : TrackSignUpInput) : List GoString :=
  (marshalMembers (buildReqBody lib input)).map Prod.fst

/-- The bytes a string field adds to the request object: none when the
pointer is nil or the string empty, else the quoted key, a colon, the JSON
text of the string and a comma. -/
def wireMember (lib : StdLib) (key : GoString) (v : Option GoString) : List Byte :=
  match v with
  | none => []
  | some s =>
    if s.isEmpty then [] else str "\x22" ++ key ++ str "\x22:" ++ lib.jsonString s ++ str ","

/-- The JSON text of a boolean. -/
def boolText (b : Bool) : List Byte := if b then str "true" else str "false"

/-- The request `TrackSignUp` builds under a context that is not nil: lines
93 to 99. -/
def signupRequest (lib : StdLib) (client : Client) (k : Context)
    (input : TrackSignUpInput) : Request :=
  setHeaders client
    { ctx := k, Method := MethodPost, URL := signupURL, Header := [],
      Body := requestBody lib input }

/-- The output built from a decoded body and a timestamp: lines 133 to 144. -/
def outputOf (rb : RespBody) (createdAt : Time) : TrackSignUpOutput :=
  { Id := rb.Id, Etype := rb.Etype, SaleAmount := rb.SaleAmount,
    OriginalSaleAmount := rb.OriginalSaleAmount,
    OriginalSaleCurrency := rb.OriginalSaleCurrency, EventId := rb.EventId,
    PlanId := rb.PlanId, BillingPeriod := rb.BillingPeriod, CreatedAt := createdAt,
    Referral := rb.Referral }

/-- The zero-valued output: `Id` 0, empty strings, nil pointers, zero time. -/
def TrackSignUpOutput.zero : TrackSignUpOutput :=
  { Id := 0, Etype := [], SaleAmount := none, OriginalSaleAmount := none,
    OriginalSaleCurrency := none, EventId := none, PlanId := none, BillingPeriod := none,
    CreatedAt := Time.zero, Referral := ⟨[], none, none⟩ }

/-! ## Sample values -/

/-- A client whose HTTP client answers every request with the given
response. -/
def fixedClient (resp : Response) : Client :=
  New (str "acct_1") (str "key_1") (some ⟨fun _ => .ok resp⟩)

/-- An input with an email and a tracking id. -/
def sampleInput : TrackSignUpInput :=
  { Email := some (str "lead@example.com"), Tid := some (str "tid-1") }

/-- A context. -/
def sampleCtx : Context := ⟨0⟩

/-- Status 422 with body `{"error":"invalid ref_id"}`. -/
def resp422 : Response :=
  { StatusCode := 422, Status := str "422 Unprocessable Entity",
    Body := str "\x7b\x22error\x22:\x22invalid ref_id\x22\x7d" }

/-- Status 500 with a body of 9000 bytes. -/
def resp500 : Response :=
  { StatusCode := 500, Status := str "500 Internal Server Error",
    Body := List.replicate 9000 120 }

/-- Status 201 with a well-formed body whose `created_at` is
`2024-01-02T15:04:05Z`. -/
def resp201 : Response :=
  { StatusCode := 201, Status := str "201 Created",
    Body := str ("\x7b\x22id\x22:7,\x22etype\x22:\x22signup\x22,\x22sale_amount\x22:null," ++
      "\x22created_at\x22:\x222024-01-02T15:04:05Z\x22," ++
      "\x22referral\x22:\x7b\x22id\x22:\x22r1\x22,\x22email\x22:\x22lead@example.com\x22\x7d\x7d") }

/-- The struct decoded from the body of `resp201`. -/
def body201 : RespBody :=
  { RespBody.zero with
    Id := 7, Etype := str "signup", CreatedAt := str "2024-01-02T15:04:05Z",
    Referral := ⟨str "r1", some (str "lead@example.com"), none⟩ }

/-- Status 200 with body `{"id":7,"created_at":"not-a-date"}`. -/
def respNotADate : Response :=
  { StatusCode := 200, Status := str "200 OK",
    Body := str "\x7b\x22id\x22:7,\x22created_at\x22:\x22not-a-date\x22\x7d" }

/-- Status 200 with an empty body. -/
def respEmpty : Response :=
  { StatusCode := 200, Status := str "200 OK", Body := [] }

/-! ## Auxiliary lemmas -/

theorem slurpLimit_eq : slurpLimit = 8192 := by decide

theorem buildReqBody_eq (lib : StdLib) (input : TrackSignUpInput) :
    buildReqBody lib input =
      { Email := input.Email.getD [], Uid := input.Uid.getD [], Tid := input.Tid.getD [],
        RefId := input.RefId.getD [], Ip := input.Ip.getD [],
        CreatedAt := (input.CreatedAt.map lib.formatRFC3339UTC).getD [],
        SkipEmailNotification := input.SkipEmailNotification.getD false } := by
  rcases input with ⟨u, e, t, r, i, c, s⟩
  cases u <;> cases e <;> cases t <;> cases r <;> cases i <;> cases c <;> cases s <;> rfl

theorem mem_omitEmpty (key v : GoString) (m : GoString × JsonValue) :
    m ∈ omitEmpty key v ↔ v ≠ [] ∧ m = (key, JsonValue.string v) := by
  unfold omitEmpty
  cases v <;> simp

theorem mem_marshalMembers (b : ReqBody) (m : GoString × JsonValue) :
    m ∈ marshalMembers b ↔
      (b.Email ≠ [] ∧ m = (str "email", JsonValue.string b.Email)) ∨
      (b.Uid ≠ [] ∧ m = (str "uid", JsonValue.string b.Uid)) ∨
      (b.Tid ≠ [] ∧ m = (str "tid", JsonValue.string b.Tid)) ∨
      (b.RefId ≠ [] ∧ m = (str "ref_id", JsonValue.string b.RefId)) ∨
      (b.Ip ≠ [] ∧ m = (str "ip", JsonValue.string b.Ip)) ∨
      (b.CreatedAt ≠ [] ∧ m = (str "created_at", JsonValue.string b.CreatedAt)) ∨
      m = (str "skip_email_notification", JsonValue.bool b.SkipEmailNotification) := by
  simp only [marshalMembers, List.mem_append, mem_omitEmpty, List.mem_singleton]
  tauto

/-- The seven keys of the request object are pairwise different. -/
theorem requestKeys_nodup :
    [str "email", str "uid", str "tid", str "ref_id", str "ip", str "created_at",
      str "skip_email_notification"].Nodup := by decide

theorem mem_bodyKeys (lib : StdLib) (input : TrackSignUpInput) (k : GoString) :
    k ∈ bodyKeys lib input ↔
      ((∃ v, input.Email = some v ∧ v ≠ []) ∧ k = str "email") ∨
      ((∃ v, input.Uid = some v ∧ v ≠ []) ∧ k = str "uid") ∨
      ((∃ v, input.Tid = some v ∧ v ≠ []) ∧ k = str "tid") ∨
      ((∃ v, input.RefId = some v ∧ v ≠ []) ∧ k = str "ref_id") ∨
      ((∃ v, input.Ip = some v ∧ v ≠ []) ∧ k = str "ip") ∨
      ((∃ t, input.CreatedAt = some t ∧ lib.formatRFC3339UTC t ≠ []) ∧ k = str "created_at") ∨
      k = str "skip_email_notification" := by
  rcases input with ⟨u, e, t, r, i, c, s⟩
  simp only [bodyKeys, List.mem_map, mem_marshalMembers, buildReqBody_eq, Prod.exists]
  constructor
  · rintro ⟨a, b, h, rfl⟩
    rcases h with h | h | h | h | h | h | h
    · cases e <;> simp_all
    · cases u <;> simp_all
    · cases t <;> simp_all
    · cases r <;> simp_all
    · cases i <;> simp_all
    · cases c <;> simp_all
    · simp_all
  · rintro (⟨⟨v, hv, hne⟩, rfl⟩ | ⟨⟨v, hv, hne⟩, rfl⟩ | ⟨⟨v, hv, hne⟩, rfl⟩ | ⟨⟨v, hv, hne⟩, rfl⟩ |
      ⟨⟨v, hv, hne⟩, rfl⟩ | ⟨⟨v, hv, hne⟩, rfl⟩ | rfl)
    · exact ⟨_, JsonValue.string v, Or.inl (by simp_all), rfl⟩
    · exact ⟨_, JsonValue.string v, Or.inr (Or.inl (by simp_all)), rfl⟩
    · exact ⟨_, JsonValue.string v, Or.inr (Or.inr (Or.inl (by simp_all))), rfl⟩
    · exact ⟨_, JsonValue.string v, Or.inr (Or.inr (Or.inr (Or.inl (by simp_all)))), rfl⟩
    · exact ⟨_, JsonValue.string v,
        Or.inr (Or.inr (Or.inr (Or.inr (Or.inl (by simp_all))))), rfl⟩
    · exact ⟨_, JsonValue.string (lib.formatRFC3339UTC v),
        Or.inr (Or.inr (Or.inr (Or.inr (Or.inr (Or.inl (by simp_all)))))), rfl⟩
    · exact ⟨_, JsonValue.bool (s.getD false),
        Or.inr (Or.inr (Or.inr (Or.inr (Or.inr (Or.inr rfl))))), rfl⟩

/-- The text `intercalate` gives a list that ends with `y`: every element
before `y` is followed by the separator. -/
theorem intercalate_snoc (sep : List Byte) (xs : List (List Byte)) (y : List Byte) :
    sep.intercalate (xs ++ [y]) = xs.flatMap (fun x => x ++ sep) ++ y := by
  induction xs with
  | nil => simp [List.intercalate, List.intersperse]
  | cons x xs ih =>
    cases xs with
    | nil => simp [List.intercalate, List.intersperse]
    | cons z zs =>
      simp only [List.intercalate, List.cons_append, List.intersperse, List.flatMap_cons] at ih ⊢
      simp only [List.flatten_cons, List.append_assoc] at ih ⊢
      exact congrArg (fun t => x ++ (sep ++ t)) ih

/-- The bytes of the members `omitEmpty` yields, each followed by a comma. -/
theorem wireMember_omitEmpty (lib : StdLib) (key : GoString) (o : Option GoString) :
    ((omitEmpty key (o.getD [])).map (renderMember lib)).flatMap (fun x => x ++ str ",") =
      wireMember lib key o := by
  cases o with
  | none => rfl
  | some v =>
    cases v with
    | nil => rfl
    | cons b bs =>
      simp [omitEmpty, wireMember, renderMember, renderValue]

/-- The bytes of the request body, member by member. -/
theorem requestBody_bytes (lib : StdLib) (input : TrackSignUpInput) :
    requestBody lib input =
      str "\x7b" ++ wireMember lib (str "email") input.Email ++
        wireMember lib (str "uid") input.Uid ++
        wireMember lib (str "tid") input.Tid ++
        wireMember lib (str "ref_id") input.RefId ++
        wireMember lib (str "ip") input.Ip ++
        wireMember lib (str "created_at") (input.CreatedAt.map lib.formatRFC3339UTC) ++
        str "\x22skip_email_notification\x22:" ++
        boolText (input.SkipEmailNotification.getD false) ++ str "\x7d" := by
  have hkey : str "\x22" ++ str "skip_email_notification" ++ str "\x22:" =
      str "\x22skip_email_notification\x22:" := by decide
  have hb : ∀ b : Bool, renderValue lib (JsonValue.bool b) = boolText b := by
    intro b; cases b <;> rfl
  have hkey2 : ∀ t : List Byte, str "\x22" ++ (str "skip_email_notification" ++
      (str "\x22:" ++ t)) = str "\x22skip_email_notification\x22:" ++ t := by
    intro t
    rw [← List.append_assoc, ← List.append_assoc, hkey]
  simp only [requestBody, jsonMarshal, renderObject, buildReqBody_eq, marshalMembers,
    List.map_append, List.map_cons, List.map_nil, intercalate_snoc, List.flatMap_append,
    wireMember_omitEmpty, renderMember, hb]
  simp only [hkey, hkey2, List.append_assoc]

/-- The reference encoder copies printable ASCII other than the double quote,
the backslash and the three characters of HTML. -/
theorem escapeString_plain (n : Nat) (v : List Byte) (hn : v.length ≤ n)
    (hv : ∀ b ∈ v, 0x20 ≤ b ∧ b < 0x80 ∧ b ≠ 0x22 ∧ b ≠ 0x5C ∧ b ≠ 0x3C ∧ b ≠ 0x3E ∧ b ≠ 0x26) :
    escapeString n v = v := by
  induction v generalizing n with
  | nil => cases n <;> rfl
  | cons b rest ih =>
    cases n with
    | zero => simp at hn
    | succ m =>
      obtain ⟨h1, h2, h3, h4, h5, h6, h7⟩ := hv b (List.mem_cons_self _ _)
      have hs : htmlSafe b = true := by simp [htmlSafe, h1, h2, h3, h4, h5, h6, h7]
      simp only [escapeString, h2, hs, if_true]
      rw [ih m (by simpa using hn) (fun c hc => hv c (List.mem_cons_of_mem _ hc))]
      rfl

/-- The member a field that points to a string that is not empty adds. -/
theorem wireMember_some (lib : StdLib) (key v : GoString) (hv : v ≠ []) :
    wireMember lib key (some v) =
      str "\x22" ++ key ++ str "\x22:" ++ lib.jsonString v ++ str "," := by
  cases v with
  | nil => exact absurd rfl hv
  | cons b bs => rfl

/-- The text of a boolean member value, case by case. -/
theorem boolText_getD (o : Option Bool) :
    boolText (o.getD false) =
      match o with
      | none => str "false"
      | some false => str "false"
      | some true => str "true" := by
  cases o with
  | none => rfl
  | some b => cases b <;> rfl

/-- A list that ends with three pieces ends with their concatenation. -/
theorem suffix_of_tail (p a b c d : List Byte) (h : a ++ (b ++ c) = d) :
    d <:+ p ++ a ++ b ++ c :=
  ⟨p, by rw [← h]; simp only [List.append_assoc]⟩


theorem scanString_escaped_ofNat (k : Nat) (hk : k < 128) (f : Nat) (tail : List Byte) :
    scanString (f + 1)
        ((if htmlSafe (UInt8.ofNat k) then [UInt8.ofNat k] else escapeByte (UInt8.ofNat k)) ++
          tail) =
      (scanString f tail).map (fun p => (UInt8.ofNat k :: p.1, p.2)) := by
  interval_cases k <;> rfl

theorem escaped_ofNat_length (k : Nat) (hk : k < 128) :
    1 ≤ (if htmlSafe (UInt8.ofNat k) then [UInt8.ofNat k]
      else escapeByte (UInt8.ofNat k)).length := by
  interval_cases k <;> decide

theorem byte_eq_ofNat (b : Byte) : b = UInt8.ofNat b.toNat :=
  UInt8.toNat.inj (UInt8.toNat_ofNat_of_lt (UInt8.toNat_lt_size b)).symm

/-- One step of the reference decoder on what the reference encoder writes
for an ASCII byte: the byte is read back. -/
theorem scanString_escaped_byte (b : Byte) (hb : b < 0x80) (f : Nat) (tail : List Byte) :
    scanString (f + 1) ((if htmlSafe b then [b] else escapeByte b) ++ tail) =
      (scanString f tail).map (fun p => (b :: p.1, p.2)) := by
  have hk : b.toNat < 128 := hb
  have h := scanString_escaped_ofNat b.toNat hk f tail
  rw [← byte_eq_ofNat b] at h
  exact h

/-- What the reference encoder writes for an ASCII byte is not empty. -/
theorem escaped_byte_length (b : Byte) (hb : b < 0x80) :
    1 ≤ (if htmlSafe b then [b] else escapeByte b).length := by
  have hk : b.toNat < 128 := hb
  have h := escaped_ofNat_length b.toNat hk
  rw [← byte_eq_ofNat b] at h
  exact h

theorem escapeString_ascii_cons (m : Nat) (b : Byte) (bs : List Byte) (hb : b < 0x80) :
    escapeString (m + 1) (b :: bs) =
      (if htmlSafe b then [b] else escapeByte b) ++ escapeString m bs := by
  simp only [escapeString, hb, if_true]

theorem escapeString_ascii_length (n : Nat) (v : List Byte) (hn : v.length ≤ n)
    (hv : ∀ b ∈ v, b < 0x80) : v.length ≤ (escapeString n v).length := by
  induction v generalizing n with
  | nil => exact Nat.zero_le _
  | cons b bs ih =>
    cases n with
    | zero => simp at hn
    | succ m =>
      have hb := hv b (List.mem_cons_self _ _)
      rw [escapeString_ascii_cons m b bs hb, List.length_append, List.length_cons]
      have h1 := escaped_byte_length b hb
      have h2 := ih m (by simpa using hn) (fun c hc => hv c (List.mem_cons_of_mem _ hc))
      omega

/-- The reference decoder reads back an ASCII string from what the reference
encoder writes for it, whatever follows the closing quote. -/
theorem scanString_escapeString (n : Nat) (v : List Byte) (f : Nat) (rest : List Byte)
    (hn : v.length ≤ n) (hv : ∀ b ∈ v, b < 0x80) :
    scanString (v.length + 1 + f) (escapeString n v ++ 0x22 :: rest) = some (v, rest) := by
  induction v generalizing n with
  | nil =>
    have h0 : escapeString n [] = [] := by cases n <;> rfl
    rw [h0]
    have : ([] : List Byte).length + 1 + f = f + 1 := by simp; omega
    rw [this]
    rfl
  | cons b bs ih =>
    cases n with
    | zero => simp at hn
    | succ m =>
      have hb := hv b (List.mem_cons_self _ _)
      rw [escapeString_ascii_cons m b bs hb, List.append_assoc]
      have : (b :: bs).length + 1 + f = (bs.length + 1 + f) + 1 := by simp; omega
      rw [this, scanString_escaped_byte b hb,
        ih m (by simpa using hn) (fun c hc => hv c (List.mem_cons_of_mem _ hc))]
      rfl

/-- The reference decoder reads the JSON text of an ASCII string back as the
string. -/
theorem parseValue_jsonString (v : List Byte) (hv : ∀ b ∈ v, b < 0x80) (n : Nat)
    (rest : List Byte) :
    parseValue (n + 1) 0 (jsonString v ++ rest) = some (JVal.string v, rest) := by
  have hlen := escapeString_ascii_length v.length v (Nat.le_refl _) hv
  have hq : jsonString v ++ rest = 0x22 :: (escapeString v.length v ++ 0x22 :: rest) := by
    simp [jsonString]
  rw [hq]
  have hs : skipSpace (0x22 :: (escapeString v.length v ++ 0x22 :: rest)) =
      0x22 :: (escapeString v.length v ++ 0x22 :: rest) := rfl
  simp only [parseValue, hs]
  have hf : (escapeString v.length v ++ 0x22 :: rest).length + 1 =
      v.length + 1 + ((escapeString v.length v ++ 0x22 :: rest).length - v.length) := by
    simp only [List.length_append, List.length_cons]
    omega
  have h22 : ((0x22 : Byte) == 0x22) = true := rfl
  simp only [h22, if_true]
  rw [hf, scanString_escapeString v.length v _ rest (Nat.le_refl _) hv]
  rfl

theorem canonical_contentType :
    CanonicalMIMEHeaderKey (str "Content-Type") = str "Content-Type" := by decide

theorem canonical_accountId :
    CanonicalMIMEHeaderKey (str "ACCOUNT-ID") = str "Account-Id" := by decide

theorem canonical_authorization :
    CanonicalMIMEHeaderKey (str "Authorization") = str "Authorization" := by decide

/-- The header of a request after the three `Set` calls on an empty header. -/
theorem setHeaders_header (client : Client) (req : Request) (h : req.Header = []) :
    (setHeaders client req).Header =
      [(str "Authorization", str "Bearer " ++ client.apiKey),
        (str "Account-Id", client.accountId),
        (str "Content-Type", str "application/json")] := by
  have h1 : (str "Content-Type" != str "Account-Id") = true := by decide
  have h2 : (str "Content-Type" != str "Authorization") = true := by decide
  have h3 : (str "Account-Id" != str "Authorization") = true := by decide
  simp only [setHeaders, Header.Set, h, canonical_contentType, canonical_accountId,
    canonical_authorization, List.filter_nil, List.filter_cons, h1, h2, h3, if_true]

/-- What `TrackSignUp` does with a context and an HTTP client that are not
nil. -/
theorem TrackSignUp_some (lib : StdLib) (client : Client) (k : Context)
    (input : TrackSignUpInput) (c : HttpClient) (hc : client.client = some c) :
    TrackSignUp lib client (some k) input =
      match c.Do (signupRequest lib client k input) with
      | .error e => ⟨[signupRequest lib client k input],
          .returned none (some (str "http do: " ++ e))⟩
      | .ok resp =>
        if resp.StatusCode < 200 || resp.StatusCode >= 300 then
          ⟨[signupRequest lib client k input], .returned none (some (statusError resp))⟩
        else ⟨[signupRequest lib client k input], readResponse lib resp⟩ := by
  simp only [TrackSignUp, NewRequestWithContext, hc, signupRequest]

/-- The requests `TrackSignUp` sends: none, or the one it builds. -/
theorem sent_cases (lib : StdLib) (client : Client) (ctx : Option Context)
    (input : TrackSignUpInput) :
    (TrackSignUp lib client ctx input).sent = [] ∨
      ∃ k, ctx = some k ∧
        (TrackSignUp lib client ctx input).sent = [signupRequest lib client k input] := by
  cases ctx with
  | none => left; rfl
  | some k =>
    cases hc : client.client with
    | none => left; simp [TrackSignUp, NewRequestWithContext, hc]
    | some c =>
      right
      refine ⟨k, rfl, ?_⟩
      rw [TrackSignUp_some lib client k input c hc]
      cases c.Do (signupRequest lib client k input) with
      | error e => rfl
      | ok resp => dsimp only; split <;> rfl

/-- The outcome on a response whose status is outside [200, 300). -/
theorem outcome_of_bad_status (lib : StdLib) (client : Client) (k : Context)
    (input : TrackSignUpInput) (c : HttpClient) (resp : Response)
    (hc : client.client = some c)
    (hdo : c.Do (signupRequest lib client k input) = .ok resp)
    (hst : resp.StatusCode < 200 ∨ 300 ≤ resp.StatusCode) :
    TrackSignUp lib client (some k) input =
      ⟨[signupRequest lib client k input], .returned none (some (statusError resp))⟩ := by
  rw [TrackSignUp_some lib client k input c hc, hdo]
  have h : (decide (resp.StatusCode < 200) || decide (resp.StatusCode ≥ 300)) = true := by
    rcases hst with h | h <;> simp [h]
  simp only [h, if_true]

/-- The outcome on a response whose status is in [200, 300). -/
theorem outcome_of_good_status (lib : StdLib) (client : Client) (k : Context)
    (input : TrackSignUpInput) (c : HttpClient) (resp : Response)
    (hc : client.client = some c)
    (hdo : c.Do (signupRequest lib client k input) = .ok resp)
    (hst : 200 ≤ resp.StatusCode ∧ resp.StatusCode < 300) :
    TrackSignUp lib client (some k) input =
      ⟨[signupRequest lib client k input], readResponse lib resp⟩ := by
  rw [TrackSignUp_some lib client k input c hc, hdo]
  have h : (decide (resp.StatusCode < 200) || decide (resp.StatusCode ≥ 300)) = false := by
    simp only [Bool.or_eq_false_iff, decide_eq_false_iff_not, not_lt, ge_iff_le]
    omega
  simp only [h]
  rfl

/-- The value of `readResponse` once the body is decoded (or empty) and the
timestamp parsed. -/
theorem readResponse_decoded (lib : StdLib) (resp : Response) (rb : RespBody)
    (hdec : lib.decode resp.Body = .ok rb ∨ (lib.decode resp.Body = .eof ∧ rb = RespBody.zero)) :
    readResponse lib resp =
      match lib.timeParse rb.CreatedAt with
      | .ok _ => .returned none (some (str "Error parsing CreatedAt"))
      | .error _ => .returned (some (outputOf rb Time.zero)) none := by
  rcases hdec with h | ⟨h, rfl⟩
  · simp only [readResponse, h]
    cases lib.timeParse rb.CreatedAt <;> rfl
  · simp only [readResponse, h]
    cases lib.timeParse RespBody.zero.CreatedAt <;> rfl

/-- Every output `readResponse` returns has the zero `CreatedAt`. -/
theorem readResponse_createdAt (lib : StdLib) (resp : Response) (out : TrackSignUpOutput)
    (err : Option GoString) (h : readResponse lib resp = .returned (some out) err) :
    out.CreatedAt = Time.zero := by
  unfold readResponse at h
  cases hd : lib.decode resp.Body with
  | fail e => simp [hd] at h
  | eof =>
    simp only [hd] at h
    cases hp : lib.timeParse RespBody.zero.CreatedAt with
    | ok t => simp [hp] at h
    | error e =>
      simp [hp] at h
      rw [← h.1]
  | ok rb =>
    simp only [hd] at h
    cases hp : lib.timeParse rb.CreatedAt with
    | ok t => simp [hp] at h
    | error e =>
      simp [hp] at h
      rw [← h.1]

/-- How a call of `TrackSignUp` can end: with an error and a nil output, with
a panic, or with what `readResponse` returns on a response. -/
theorem outcome_cases (lib : StdLib) (client : Client) (ctx : Option Context)
    (input : TrackSignUpInput) :
    (∃ e, (TrackSignUp lib client ctx input).outcome = .returned none (some e)) ∨
    (TrackSignUp lib client ctx input).outcome = .panicked ∨
    ∃ resp, (TrackSignUp lib client ctx input).outcome = readResponse lib resp := by
  cases ctx with
  | none => exact Or.inl ⟨_, rfl⟩
  | some k =>
    cases hc : client.client with
    | none => right; left; simp [TrackSignUp, NewRequestWithContext, hc]
    | some c =>
      rw [TrackSignUp_some lib client k input c hc]
      cases c.Do (signupRequest lib client k input) with
      | error e => exact Or.inl ⟨_, rfl⟩
      | ok resp =>
        dsimp only
        split
        · exact Or.inl ⟨_, rfl⟩
        · exact Or.inr (Or.inr ⟨resp, rfl⟩)

set_option maxRecDepth 100000

/-! ## Main results -/

/-- C1: on a response whose status code is below 200 or at least 300,
`TrackSignUp` returns an error and a nil output whatever the body holds, and
the body is not decoded: the whole call is the same under any other JSON
decoder and time parser. -/
theorem status_error_no_output (lib : StdLib) (client : Client) (k : Context)
    (input : TrackSignUpInput) (c : HttpClient) (resp : Response)
    (hc : client.client = some c)
    (hdo : c.Do (signupRequest lib client k input) = .ok resp)
    (hst : resp.StatusCode < 200 ∨ 300 ≤ resp.StatusCode) :
    (∃ e, (TrackSignUp lib client (some k) input).outcome = .returned none (some e)) ∧
    ∀ (dec : List Byte → DecodeResult) (tp : GoString → Except GoString Time),
      TrackSignUp { lib with decode := dec, timeParse := tp } client (some k) input =
        TrackSignUp lib client (some k) input := by
  refine ⟨⟨statusError resp, ?_⟩, ?_⟩
  · rw [outcome_of_bad_status lib client k input c resp hc hdo hst]
  · intro dec tp
    rw [outcome_of_bad_status lib client k input c resp hc hdo hst]
    exact outcome_of_bad_status { lib with decode := dec, timeParse := tp } client k input c
      resp hc hdo hst

/-- C1 at status 422 with body `{"error":"invalid ref_id"}`. -/
theorem status_error_no_output_witness :
    (∃ e, (TrackSignUp refLib (fixedClient resp422) (some sampleCtx) sampleInput).outcome =
      .returned none (some e)) ∧
    ∀ (dec : List Byte → DecodeResult) (tp : GoString → Except GoString Time),
      TrackSignUp { refLib with decode := dec, timeParse := tp } (fixedClient resp422)
          (some sampleCtx) sampleInput =
        TrackSignUp refLib (fixedClient resp422) (some sampleCtx) sampleInput :=
  status_error_no_output refLib (fixedClient resp422) sampleCtx sampleInput
    ⟨fun _ => .ok resp422⟩ resp422 rfl rfl (Or.inr (by decide))

/-- C2 (the code at a failing input): on status 201 with a well-formed body
whose `created_at` is `2024-01-02T15:04:05Z`, the body decodes, the timestamp
parses, and `TrackSignUp` returns the error `Error parsing CreatedAt` and a
nil output. -/
theorem valid_createdAt_returns_error :
    refLib.decode resp201.Body = .ok body201 ∧
    refLib.timeParse body201.CreatedAt = .ok ⟨63839804645, 0⟩ ∧
    (TrackSignUp refLib (fixedClient resp201) (some sampleCtx) sampleInput).outcome =
      .returned none (some (str "Error parsing CreatedAt")) :=
  ⟨rfl, rfl, rfl⟩

/-- C3 (the code at a failing input): on status 200 with body
`{"id":7,"created_at":"not-a-date"}` the timestamp does not parse, and
`TrackSignUp` returns a nil error and an output with the zero timestamp. -/
theorem invalid_createdAt_returns_output :
    (∃ e, refLib.timeParse (str "not-a-date") = .error e) ∧
    (TrackSignUp refLib (fixedClient respNotADate) (some sampleCtx) sampleInput).outcome =
      .returned (some { TrackSignUpOutput.zero with Id := 7 }) none := by
  exact ⟨⟨_, rfl⟩, rfl⟩

/-- C4: a field among `Email`, `Uid`, `Tid`, `RefId`, `Ip`, `CreatedAt` that
is nil has no key in the request object; no string member of the object is
empty; and every key of the object is `skip_email_notification` or the key of
a field that is not nil. -/
theorem absent_fields_omitted (lib : StdLib) (input : TrackSignUpInput) :
    (input.Email = none → str "email" ∉ bodyKeys lib input) ∧
    (input.Uid = none → str "uid" ∉ bodyKeys lib input) ∧
    (input.Tid = none → str "tid" ∉ bodyKeys lib input) ∧
    (input.RefId = none → str "ref_id" ∉ bodyKeys lib input) ∧
    (input.Ip = none → str "ip" ∉ bodyKeys lib input) ∧
    (input.CreatedAt = none → str "created_at" ∉ bodyKeys lib input) ∧
    (∀ key v, (key, JsonValue.string v) ∈ marshalMembers (buildReqBody lib input) → v ≠ []) ∧
    (∀ key ∈ bodyKeys lib input,
      key = str "skip_email_notification" ∨
      (key = str "email" ∧ input.Email ≠ none) ∨
      (key = str "uid" ∧ input.Uid ≠ none) ∨
      (key = str "tid" ∧ input.Tid ≠ none) ∨
      (key = str "ref_id" ∧ input.RefId ≠ none) ∨
      (key = str "ip" ∧ input.Ip ≠ none) ∨
      (key = str "created_at" ∧ input.CreatedAt ≠ none)) := by
  have hk := requestKeys_nodup
  simp only [List.nodup_cons, List.mem_cons, List.mem_singleton, not_or, List.not_mem_nil,
    not_false_eq_true, List.nodup_nil, and_true] at hk
  obtain ⟨⟨e1, e2, e3, e4, e5, e6⟩, ⟨u2, u3, u4, u5, u6⟩, ⟨t3, t4, t5, t6⟩, ⟨r4, r5, r6⟩,
    ⟨i5, i6⟩, c6⟩ := hk
  refine ⟨?_, ?_, ?_, ?_, ?_, ?_, ?_, ?_⟩
  · intro h hm
    rw [mem_bodyKeys] at hm
    rcases hm with ⟨⟨v, hv, -⟩, hm⟩ | ⟨⟨v, hv, -⟩, hm⟩ | ⟨⟨v, hv, -⟩, hm⟩ | ⟨⟨v, hv, -⟩, hm⟩ |
      ⟨⟨v, hv, -⟩, hm⟩ | ⟨⟨v, hv, -⟩, hm⟩ | hm
    all_goals first | (rw [h] at hv; cases hv) | exact absurd hm (by assumption)
  · intro h hm
    rw [mem_bodyKeys] at hm
    rcases hm with ⟨⟨v, hv, -⟩, hm⟩ | ⟨⟨v, hv, -⟩, hm⟩ | ⟨⟨v, hv, -⟩, hm⟩ | ⟨⟨v, hv, -⟩, hm⟩ |
      ⟨⟨v, hv, -⟩, hm⟩ | ⟨⟨v, hv, -⟩, hm⟩ | hm
    all_goals first
      | (rw [h] at hv; cases hv)
      | exact absurd hm (by assumption)
      | exact absurd hm.symm (by assumption)
  · intro h hm
    rw [mem_bodyKeys] at hm
    rcases hm with ⟨⟨v, hv, -⟩, hm⟩ | ⟨⟨v, hv, -⟩, hm⟩ | ⟨⟨v, hv, -⟩, hm⟩ | ⟨⟨v, hv, -⟩, hm⟩ |
      ⟨⟨v, hv, -⟩, hm⟩ | ⟨⟨v, hv, -⟩, hm⟩ | hm
    all_goals first
      | (rw [h] at hv; cases hv)
      | exact absurd hm (by assumption)
      | exact absurd hm.symm (by assumption)
  · intro h hm
    rw [mem_bodyKeys] at hm
    rcases hm with ⟨⟨v, hv, -⟩, hm⟩ | ⟨⟨v, hv, -⟩, hm⟩ | ⟨⟨v, hv, -⟩, hm⟩ | ⟨⟨v, hv, -⟩, hm⟩ |
      ⟨⟨v, hv, -⟩, hm⟩ | ⟨⟨v, hv, -⟩, hm⟩ | hm
    all_goals first
      | (rw [h] at hv; cases hv)
      | exact absurd hm (by assumption)
      | exact absurd hm.symm (by assumption)
  · intro h hm
    rw [mem_bodyKeys] at hm
    rcases hm with ⟨⟨v, hv, -⟩, hm⟩ | ⟨⟨v, hv, -⟩, hm⟩ | ⟨⟨v, hv, -⟩, hm⟩ | ⟨⟨v, hv, -⟩, hm⟩ |
      ⟨⟨v, hv, -⟩, hm⟩ | ⟨⟨v, hv, -⟩, hm⟩ | hm
    all_goals first
      | (rw [h] at hv; cases hv)
      | exact absurd hm (by assumption)
      | exact absurd hm.symm (by assumption)
  · intro h hm
    rw [mem_bodyKeys] at hm
    rcases hm with ⟨⟨v, hv, -⟩, hm⟩ | ⟨⟨v, hv, -⟩, hm⟩ | ⟨⟨v, hv, -⟩, hm⟩ | ⟨⟨v, hv, -⟩, hm⟩ |
      ⟨⟨v, hv, -⟩, hm⟩ | ⟨⟨v, hv, -⟩, hm⟩ | hm
    all_goals first
      | (rw [h] at hv; cases hv)
      | exact absurd hm (by assumption)
      | exact absurd hm.symm (by assumption)
  · intro key v hm
    rw [mem_marshalMembers] at hm
    rcases hm with ⟨hne, hm⟩ | ⟨hne, hm⟩ | ⟨hne, hm⟩ | ⟨hne, hm⟩ | ⟨hne, hm⟩ | ⟨hne, hm⟩ | hm
    all_goals first
      | (injection hm with _ h2; injection h2 with h3; rw [h3]; exact hne)
      | (injection hm with _ h2; cases h2)
  · intro key hm
    rw [mem_bodyKeys] at hm
    rcases hm with ⟨⟨v, hv, -⟩, rfl⟩ | ⟨⟨v, hv, -⟩, rfl⟩ | ⟨⟨v, hv, -⟩, rfl⟩ |
      ⟨⟨v, hv, -⟩, rfl⟩ | ⟨⟨v, hv, -⟩, rfl⟩ | ⟨⟨v, hv, -⟩, rfl⟩ | rfl
    · exact Or.inr (Or.inl ⟨rfl, by simp [hv]⟩)
    · exact Or.inr (Or.inr (Or.inl ⟨rfl, by simp [hv]⟩))
    · exact Or.inr (Or.inr (Or.inr (Or.inl ⟨rfl, by simp [hv]⟩)))
    · exact Or.inr (Or.inr (Or.inr (Or.inr (Or.inl ⟨rfl, by simp [hv]⟩))))
    · exact Or.inr (Or.inr (Or.inr (Or.inr (Or.inr (Or.inl ⟨rfl, by simp [hv]⟩)))))
    · exact Or.inr (Or.inr (Or.inr (Or.inr (Or.inr (Or.inr ⟨rfl, by simp [hv]⟩)))))
    · exact Or.inl rfl

/-- C4 on an input with only `Uid` and `RefId` set: the keys of the request
object are `uid`, `ref_id` and `skip_email_notification`, and the body is
`{"uid":"u1","ref_id":"r1","skip_email_notification":false}`. -/
theorem absent_fields_omitted_witness :
    bodyKeys refLib { Uid := some (str "u1"), RefId := some (str "r1") } =
      [str "uid", str "ref_id", str "skip_email_notification"] ∧
    requestBody refLib { Uid := some (str "u1"), RefId := some (str "r1") } =
      str ("\x7b\x22uid\x22:\x22u1\x22,\x22ref_id\x22:\x22r1\x22," ++
        "\x22skip_email_notification\x22:false\x7d") ∧
    str "email" ∉ bodyKeys refLib { Uid := some (str "u1"), RefId := some (str "r1") } :=
  ⟨by decide, by decide,
    (absent_fields_omitted refLib { Uid := some (str "u1"), RefId := some (str "r1") }).1 rfl⟩

/-- C5: the bytes of the request body are an opening brace, the members of
the string fields that are sent, the member `"skip_email_notification":` with
`false` when `SkipEmailNotification` is nil or points to `false` and `true`
when it points to `true`, and a closing brace; so the body ends with
`"skip_email_notification":true}` or `"skip_email_notification":false}`
according to the field. The request object has that member with that value
and no other value under the key, and an input with the field nil and the
same input with the field pointing to `false` have the same body. -/
theorem skip_email_notification_always_sent (lib : StdLib) (input : TrackSignUpInput) :
    requestBody lib input =
      str "\x7b" ++ wireMember lib (str "email") input.Email ++
        wireMember lib (str "uid") input.Uid ++
        wireMember lib (str "tid") input.Tid ++
        wireMember lib (str "ref_id") input.RefId ++
        wireMember lib (str "ip") input.Ip ++
        wireMember lib (str "created_at") (input.CreatedAt.map lib.formatRFC3339UTC) ++
        str "\x22skip_email_notification\x22:" ++
        (match input.SkipEmailNotification with
          | none => str "false"
          | some false => str "false"
          | some true => str "true") ++ str "\x7d" ∧
    (input.SkipEmailNotification = some true →
      str "\x22skip_email_notification\x22:true\x7d" <:+ requestBody lib input) ∧
    (input.SkipEmailNotification ≠ some true →
      str "\x22skip_email_notification\x22:false\x7d" <:+ requestBody lib input) ∧
    (str "skip_email_notification", JsonValue.bool (input.SkipEmailNotification.getD false)) ∈
      marshalMembers (buildReqBody lib input) ∧
    (∀ x, (str "skip_email_notification", x) ∈ marshalMembers (buildReqBody lib input) →
      x = JsonValue.bool (input.SkipEmailNotification.getD false)) ∧
    requestBody lib { input with SkipEmailNotification := none } =
      requestBody lib { input with SkipEmailNotification := some false } := by
  have hk := requestKeys_nodup
  simp only [List.nodup_cons, List.mem_cons, List.mem_singleton, not_or, List.not_mem_nil,
    not_false_eq_true, List.nodup_nil, and_true] at hk
  obtain ⟨⟨-, -, -, -, -, e6⟩, ⟨-, -, -, -, u6⟩, ⟨-, -, -, t6⟩, ⟨-, -, r6⟩, ⟨-, i6⟩, c6⟩ := hk
  have ht : str "\x22skip_email_notification\x22:" ++ (str "true" ++ str "\x7d") =
      str "\x22skip_email_notification\x22:true\x7d" := by decide
  have hf : str "\x22skip_email_notification\x22:" ++ (str "false" ++ str "\x7d") =
      str "\x22skip_email_notification\x22:false\x7d" := by decide
  refine ⟨?_, ?_, ?_, ?_, ?_, ?_⟩
  · rw [requestBody_bytes, boolText_getD]
  · intro h
    rw [requestBody_bytes, boolText_getD, h]
    exact suffix_of_tail _ _ _ _ _ ht
  · intro h
    rw [requestBody_bytes, boolText_getD]
    have hv : (match input.SkipEmailNotification with
        | none => str "false"
        | some false => str "false"
        | some true => str "true") = str "false" := by
      cases hs : input.SkipEmailNotification with
      | none => rfl
      | some b =>
        cases b with
        | false => rfl
        | true => exact absurd hs h
    rw [hv]
    exact suffix_of_tail _ _ _ _ _ hf
  · rw [mem_marshalMembers, buildReqBody_eq]
    simp
  · intro x hm
    rw [mem_marshalMembers, buildReqBody_eq] at hm
    rcases hm with ⟨-, hm⟩ | ⟨-, hm⟩ | ⟨-, hm⟩ | ⟨-, hm⟩ | ⟨-, hm⟩ | ⟨-, hm⟩ | hm
    all_goals
      obtain ⟨h1, h2⟩ := Prod.mk.inj hm
      first
        | exact h2
        | exact absurd h1.symm (by assumption)
  · simp only [requestBody, buildReqBody_eq, Option.getD_none, Option.getD_some]

/-- C5 on three inputs: the field nil, pointing to `true` (with a timestamp)
and pointing to `false`, with the bytes of each body. -/
theorem skip_email_notification_always_sent_witness :
    requestBody refLib sampleInput =
      str ("\x7b\x22email\x22:\x22lead@example.com\x22,\x22tid\x22:\x22tid-1\x22," ++
        "\x22skip_email_notification\x22:false\x7d") ∧
    requestBody refLib { sampleInput with
        CreatedAt := some ⟨63839804645, 0⟩, SkipEmailNotification := some true } =
      str ("\x7b\x22email\x22:\x22lead@example.com\x22,\x22tid\x22:\x22tid-1\x22," ++
        "\x22created_at\x22:\x222024-01-02T15:04:05Z\x22," ++
        "\x22skip_email_notification\x22:true\x7d") ∧
    requestBody refLib { sampleInput with SkipEmailNotification := some false } =
      requestBody refLib sampleInput ∧
    str "\x22skip_email_notification\x22:true\x7d" <:+
      requestBody refLib { sampleInput with
        CreatedAt := some ⟨63839804645, 0⟩, SkipEmailNotification := some true } ∧
    (str "skip_email_notification", JsonValue.bool false) ∈
      marshalMembers (buildReqBody refLib sampleInput) :=
  ⟨rfl, rfl, rfl,
    (skip_email_notification_always_sent refLib { sampleInput with
      CreatedAt := some ⟨63839804645, 0⟩, SkipEmailNotification := some true }).2.1 rfl,
    (skip_email_notification_always_sent refLib sampleInput).2.2.2.1⟩

/-- C6 as stated fails. With `Email` pointing to the empty string the request
object has no key `email`, and the body is the one of the input with `Email`
nil, `{"skip_email_notification":false}`. And the value sent is not always
the pointed-to string: the one-byte strings `0xff` and `0xfe` (invalid UTF-8)
are both sent as the escape of U+FFFD. -/
theorem present_empty_field_not_sent :
    str "email" ∉ bodyKeys refLib { Email := some [] } ∧
    requestBody refLib { Email := some [] } = requestBody refLib { Email := none } ∧
    requestBody refLib { Email := some [] } =
      str "\x7b\x22skip_email_notification\x22:false\x7d" ∧
    requestBody refLib { Email := some [0xff] } = requestBody refLib { Email := some [0xfe] } ∧
    requestBody refLib { Email := some [0xff] } =
      str "\x7b\x22email\x22:\x22\x5cufffd\x22,\x22skip_email_notification\x22:false\x7d" := by
  decide

/-- C6 amended: a field among `Email`, `Uid`, `Tid`, `RefId`, `Ip` that
points to a string `v` that is not empty is sent: the body holds the bytes
`"key":`, the JSON text `encoding/json` writes for `v` and a comma, at the
place of the field (the first five conjuncts, with the bytes of the whole
body in the eighth), and the struct that is marshalled has the field with
the string `v`. The reference encoder writes a string of printable ASCII
without the double quote, the backslash, `<`, `>` and `&` as it is between
double quotes, and the reference decoder reads what it writes for any ASCII
string back as that string. A field that is nil or points to the empty
string adds no byte, and a field that points to the empty string gives the
body of the same input with the field nil. -/
theorem present_nonempty_fields_sent (lib : StdLib) (input : TrackSignUpInput)
    (v : GoString) (hv : v ≠ []) :
    (input.Email = some v →
      str "\x7b\x22email\x22:" ++ lib.jsonString v ++ str "," <+: requestBody lib input) ∧
    (input.Uid = some v →
      str "\x22uid\x22:" ++ lib.jsonString v ++ str "," <:+: requestBody lib input) ∧
    (input.Tid = some v →
      str "\x22tid\x22:" ++ lib.jsonString v ++ str "," <:+: requestBody lib input) ∧
    (input.RefId = some v →
      str "\x22ref_id\x22:" ++ lib.jsonString v ++ str "," <:+: requestBody lib input) ∧
    (input.Ip = some v →
      str "\x22ip\x22:" ++ lib.jsonString v ++ str "," <:+: requestBody lib input) ∧
    (∀ key, wireMember lib key (some v) =
      str "\x22" ++ key ++ str "\x22:" ++ lib.jsonString v ++ str ",") ∧
    (∀ key, wireMember lib key (some []) = [] ∧ wireMember lib key none = []) ∧
    requestBody lib input =
      str "\x7b" ++ wireMember lib (str "email") input.Email ++
        wireMember lib (str "uid") input.Uid ++
        wireMember lib (str "tid") input.Tid ++
        wireMember lib (str "ref_id") input.RefId ++
        wireMember lib (str "ip") input.Ip ++
        wireMember lib (str "created_at") (input.CreatedAt.map lib.formatRFC3339UTC) ++
        str "\x22skip_email_notification\x22:" ++
        (match input.SkipEmailNotification with
          | none => str "false"
          | some false => str "false"
          | some true => str "true") ++ str "\x7d" ∧
    (input.Email = some v →
      (str "email", JsonValue.string v) ∈ marshalMembers (buildReqBody lib input)) ∧
    (input.Uid = some v →
      (str "uid", JsonValue.string v) ∈ marshalMembers (buildReqBody lib input)) ∧
    (input.Tid = some v →
      (str "tid", JsonValue.string v) ∈ marshalMembers (buildReqBody lib input)) ∧
    (input.RefId = some v →
      (str "ref_id", JsonValue.string v) ∈ marshalMembers (buildReqBody lib input)) ∧
    (input.Ip = some v →
      (str "ip", JsonValue.string v) ∈ marshalMembers (buildReqBody lib input)) ∧
    requestBody lib { input with Email := some [] } =
      requestBody lib { input with Email := none } ∧
    requestBody lib { input with Uid := some [] } =
      requestBody lib { input with Uid := none } ∧
    requestBody lib { input with Tid := some [] } =
      requestBody lib { input with Tid := none } ∧
    requestBody lib { input with RefId := some [] } =
      requestBody lib { input with RefId := none } ∧
    requestBody lib { input with Ip := some [] } =
      requestBody lib { input with Ip := none } ∧
    ((∀ b ∈ v, 0x20 ≤ b ∧ b < 0x80 ∧ b ≠ 0x22 ∧ b ≠ 0x5C ∧ b ≠ 0x3C ∧ b ≠ 0x3E ∧ b ≠ 0x26) →
      refLib.jsonString v = str "\x22" ++ v ++ str "\x22") ∧
    ((∀ b ∈ v, b < 0x80) → ∀ (n : Nat) (rest : List Byte),
      parseValue (n + 1) 0 (refLib.jsonString v ++ rest) = some (JVal.string v, rest)) := by
  have k1 : str "\x7b" ++ (str "\x22" ++ (str "email" ++ str "\x22:")) = str "\x7b\x22email\x22:" := by
    decide
  have k2 : str "\x22" ++ (str "uid" ++ str "\x22:") = str "\x22uid\x22:" := by decide
  have k3 : str "\x22" ++ (str "tid" ++ str "\x22:") = str "\x22tid\x22:" := by decide
  have k4 : str "\x22" ++ (str "ref_id" ++ str "\x22:") = str "\x22ref_id\x22:" := by decide
  have k5 : str "\x22" ++ (str "ip" ++ str "\x22:") = str "\x22ip\x22:" := by decide
  refine ⟨?_, ?_, ?_, ?_, ?_, ?_, ?_, ?_, ?_, ?_, ?_, ?_, ?_, ?_, ?_, ?_, ?_, ?_, ?_, ?_⟩
  · intro h
    rw [requestBody_bytes, h, wireMember_some lib _ v hv]
    refine ⟨wireMember lib (str "uid") input.Uid ++
      wireMember lib (str "tid") input.Tid ++
      wireMember lib (str "ref_id") input.RefId ++
      wireMember lib (str "ip") input.Ip ++
      wireMember lib (str "created_at") (input.CreatedAt.map lib.formatRFC3339UTC) ++
      str "\x22skip_email_notification\x22:" ++
      boolText (input.SkipEmailNotification.getD false) ++ str "\x7d", ?_⟩
    rw [← k1]
    simp only [List.append_assoc]
  · intro h
    rw [requestBody_bytes, h, wireMember_some lib _ v hv]
    refine ⟨str "\x7b" ++ wireMember lib (str "email") input.Email,
      wireMember lib (str "tid") input.Tid ++
      wireMember lib (str "ref_id") input.RefId ++
      wireMember lib (str "ip") input.Ip ++
      wireMember lib (str "created_at") (input.CreatedAt.map lib.formatRFC3339UTC) ++
      str "\x22skip_email_notification\x22:" ++
      boolText (input.SkipEmailNotification.getD false) ++ str "\x7d", ?_⟩
    rw [← k2]
    simp only [List.append_assoc]
  · intro h
    rw [requestBody_bytes, h, wireMember_some lib _ v hv]
    refine ⟨str "\x7b" ++ wireMember lib (str "email") input.Email ++
      wireMember lib (str "uid") input.Uid,
      wireMember lib (str "ref_id") input.RefId ++
      wireMember lib (str "ip") input.Ip ++
      wireMember lib (str "created_at") (input.CreatedAt.map lib.formatRFC3339UTC) ++
      str "\x22skip_email_notification\x22:" ++
      boolText (input.SkipEmailNotification.getD false) ++ str "\x7d", ?_⟩
    rw [← k3]
    simp only [List.append_assoc]
  · intro h
    rw [requestBody_bytes, h, wireMember_some lib _ v hv]
    refine ⟨str "\x7b" ++ wireMember lib (str "email") input.Email ++
      wireMember lib (str "uid") input.Uid ++
      wireMember lib (str "tid") input.Tid,
      wireMember lib (str "ip") input.Ip ++
      wireMember lib (str "created_at") (input.CreatedAt.map lib.formatRFC3339UTC) ++
      str "\x22skip_email_notification\x22:" ++
      boolText (input.SkipEmailNotification.getD false) ++ str "\x7d", ?_⟩
    rw [← k4]
    simp only [List.append_assoc]
  · intro h
    rw [requestBody_bytes, h, wireMember_some lib _ v hv]
    refine ⟨str "\x7b" ++ wireMember lib (str "email") input.Email ++
      wireMember lib (str "uid") input.Uid ++
      wireMember lib (str "tid") input.Tid ++
      wireMember lib (str "ref_id") input.RefId,
      wireMember lib (str "created_at") (input.CreatedAt.map lib.formatRFC3339UTC) ++
      str "\x22skip_email_notification\x22:" ++
      boolText (input.SkipEmailNotification.getD false) ++ str "\x7d", ?_⟩
    rw [← k5]
    simp only [List.append_assoc]
  · intro key
    exact wireMember_some lib key v hv
  · intro key
    exact ⟨rfl, rfl⟩
  · rw [requestBody_bytes, boolText_getD]
  · intro h
    rw [mem_marshalMembers, buildReqBody_eq]
    simp [h, hv]
  · intro h
    rw [mem_marshalMembers, buildReqBody_eq]
    simp [h, hv]
  · intro h
    rw [mem_marshalMembers, buildReqBody_eq]
    simp [h, hv]
  · intro h
    rw [mem_marshalMembers, buildReqBody_eq]
    simp [h, hv]
  · intro h
    rw [mem_marshalMembers, buildReqBody_eq]
    simp [h, hv]
  · simp only [requestBody, buildReqBody_eq, Option.getD_none, Option.getD_some]
  · simp only [requestBody, buildReqBody_eq, Option.getD_none, Option.getD_some]
  · simp only [requestBody, buildReqBody_eq, Option.getD_none, Option.getD_some]
  · simp only [requestBody, buildReqBody_eq, Option.getD_none, Option.getD_some]
  · simp only [requestBody, buildReqBody_eq, Option.getD_none, Option.getD_some]
  · intro hp
    show jsonString v = _
    unfold jsonString
    rw [escapeString_plain v.length v (Nat.le_refl _) hp]
    rfl
  · intro ha n rest
    exact parseValue_jsonString v ha n rest

/-- C6 amended, on the sample input: its email is in the body, written as it
is between double quotes; and a string with `<`, `>` and double quotes is
sent escaped and read back by the reference decoder. -/
theorem present_nonempty_fields_sent_witness :
    str "\x7b\x22email\x22:" ++ refLib.jsonString (str "lead@example.com") ++ str "," <+:
      requestBody refLib sampleInput ∧
    refLib.jsonString (str "lead@example.com") = str "\x22lead@example.com\x22" ∧
    requestBody refLib sampleInput =
      str ("\x7b\x22email\x22:\x22lead@example.com\x22,\x22tid\x22:\x22tid-1\x22," ++
        "\x22skip_email_notification\x22:false\x7d") ∧
    (str "email", JsonValue.string (str "lead@example.com")) ∈
      marshalMembers (buildReqBody refLib sampleInput) ∧
    requestBody refLib { Email := some (str "a<b>\x22c\x22") } =
      str ("\x7b\x22email\x22:\x22a\x5cu003cb\x5cu003e\x5c\x22c\x5c\x22\x22," ++
        "\x22skip_email_notification\x22:false\x7d") ∧
    parseValue 1 0 (refLib.jsonString (str "a<b>\x22c\x22")) =
      some (JVal.string (str "a<b>\x22c\x22"), []) :=
  ⟨(present_nonempty_fields_sent refLib sampleInput (str "lead@example.com") (by decide)).1 rfl,
    rfl, rfl,
    (present_nonempty_fields_sent refLib sampleInput (str "lead@example.com")
      (by decide)).2.2.2.2.2.2.2.2.1 rfl,
    rfl, rfl⟩

/-- C7: on a response whose status code is outside [200, 300), the error of
`TrackSignUp` is `signup: unexpected status `, the status text, `: ` and the
first 8192 bytes of the body (the whole body when it is shorter). -/
theorem status_error_message (lib : StdLib) (client : Client) (k : Context)
    (input : TrackSignUpInput) (c : HttpClient) (resp : Response)
    (hc : client.client = some c)
    (hdo : c.Do (signupRequest lib client k input) = .ok resp)
    (hst : resp.StatusCode < 200 ∨ 300 ≤ resp.StatusCode) :
    (TrackSignUp lib client (some k) input).outcome =
      .returned none (some (str "signup: unexpected status " ++ resp.Status ++ str ": " ++
        resp.Body.take 8192)) ∧
    (resp.Body.take 8192).length = min 8192 resp.Body.length ∧
    resp.Body.take 8192 <+: resp.Body := by
  refine ⟨?_, List.length_take _ _, List.take_prefix _ _⟩
  rw [outcome_of_bad_status lib client k input c resp hc hdo hst]
  simp only [statusError, slurpLimit_eq]

/-- C7 at status 500 with a body of 9000 bytes: the error carries 8192 of
them. -/
theorem status_error_message_witness :
    (TrackSignUp refLib (fixedClient resp500) (some sampleCtx) sampleInput).outcome =
      .returned none (some (str "signup: unexpected status " ++ resp500.Status ++ str ": " ++
        resp500.Body.take 8192)) ∧
    (resp500.Body.take 8192).length = min 8192 resp500.Body.length ∧
    resp500.Body.take 8192 <+: resp500.Body :=
  status_error_message refLib (fixedClient resp500) sampleCtx sampleInput
    ⟨fun _ => .ok resp500⟩ resp500 rfl rfl (Or.inr (by decide))

/-- C8: on a response with a status code in [200, 300) and an empty body,
for a library whose decoder reports `io.EOF` on an empty stream and whose
time parser rejects the empty string, `TrackSignUp` returns a nil error and
the zero-valued output. -/
theorem empty_body_zero_output (lib : StdLib) (client : Client) (k : Context)
    (input : TrackSignUpInput) (c : HttpClient) (resp : Response) (e : GoString)
    (hc : client.client = some c)
    (hdo : c.Do (signupRequest lib client k input) = .ok resp)
    (hst : 200 ≤ resp.StatusCode ∧ resp.StatusCode < 300)
    (hbody : resp.Body = [])
    (hdec : lib.decode [] = .eof)
    (hparse : lib.timeParse [] = .error e) :
    (TrackSignUp lib client (some k) input).outcome =
      .returned (some TrackSignUpOutput.zero) none := by
  rw [outcome_of_good_status lib client k input c resp hc hdo hst]
  have h := readResponse_decoded lib resp RespBody.zero (Or.inr ⟨by rw [hbody]; exact hdec, rfl⟩)
  have hz : RespBody.zero.CreatedAt = [] := rfl
  rw [hz, hparse] at h
  exact h

/-- C8 with the reference library at status 200 and an empty body. -/
theorem empty_body_zero_output_witness :
    (TrackSignUp refLib (fixedClient respEmpty) (some sampleCtx) sampleInput).outcome =
      .returned (some TrackSignUpOutput.zero) none :=
  empty_body_zero_output refLib (fixedClient respEmpty) sampleCtx sampleInput
    ⟨fun _ => .ok respEmpty⟩ respEmpty (str "parsing time: cannot parse as RFC3339")
    rfl rfl (by decide) rfl rfl rfl

/-- C9: `New` stores its three arguments unchanged; `TrackSignUp` hands at
most one request to the HTTP client, exactly one when the context and the
HTTP client are not nil; and every request it hands over has method POST, the
sign-up URL, the headers `Content-Type: application/json`, `ACCOUNT-ID` with
the account id and `Authorization` with `Bearer ` and the API key, no other
header, and the serialized input as body. -/
theorem request_shape (lib : StdLib) (accountId apiKey : GoString)
    (transport : Option HttpClient) (ctx : Option Context) (input : TrackSignUpInput) :
    (New accountId apiKey transport).accountId = accountId ∧
    (New accountId apiKey transport).apiKey = apiKey ∧
    (New accountId apiKey transport).client = transport ∧
    (TrackSignUp lib (New accountId apiKey transport) ctx input).sent.length ≤ 1 ∧
    (∀ k c, ctx = some k → transport = some c →
      (TrackSignUp lib (New accountId apiKey transport) ctx input).sent.length = 1) ∧
    ∀ req ∈ (TrackSignUp lib (New accountId apiKey transport) ctx input).sent,
      req.Method = str "POST" ∧
      req.URL = str "https://v2.firstpromoter.com/api/v2/track/signup" ∧
      req.Header.Get (str "Content-Type") = some (str "application/json") ∧
      req.Header.Get (str "ACCOUNT-ID") = some accountId ∧
      req.Header.Get (str "Authorization") = some (str "Bearer " ++ apiKey) ∧
      req.Header.length = 3 ∧
      req.Body = requestBody lib input := by
  refine ⟨rfl, rfl, rfl, ?_, ?_, ?_⟩
  · rcases sent_cases lib (New accountId apiKey transport) ctx input with h | ⟨k, -, h⟩ <;>
      simp [h]
  · rintro k c rfl rfl
    rcases sent_cases lib (New accountId apiKey (some c)) (some k) input with h | ⟨k2, -, h⟩
    · rw [TrackSignUp_some lib (New accountId apiKey (some c)) k input c rfl] at h
      revert h
      cases c.Do (signupRequest lib (New accountId apiKey (some c)) k input) with
      | error e => intro h; cases h
      | ok resp => dsimp only; split <;> intro h <;> cases h
    · simp [h]
  · intro req hreq
    rcases sent_cases lib (New accountId apiKey transport) ctx input with h | ⟨k, -, h⟩
    · rw [h] at hreq; cases hreq
    · rw [h, List.mem_singleton] at hreq
      subst hreq
      have hh := setHeaders_header (New accountId apiKey transport)
        { ctx := k, Method := MethodPost, URL := signupURL, Header := [],
          Body := requestBody lib input } rfl
      have g1 : (str "Authorization" == str "Content-Type") = false := by decide
      have g2 : (str "Account-Id" == str "Content-Type") = false := by decide
      have g3 : (str "Authorization" == str "Account-Id") = false := by decide
      refine ⟨rfl, rfl, ?_, ?_, ?_, ?_, rfl⟩
      · simp only [signupRequest, hh, Header.Get, canonical_contentType, List.find?_cons, g1, g2,
          beq_self_eq_true, Option.map_some']
      · simp only [signupRequest, hh, Header.Get, canonical_accountId, List.find?_cons, g3,
          beq_self_eq_true, Option.map_some']
        rfl
      · simp only [signupRequest, hh, Header.Get, canonical_authorization, List.find?_cons,
          beq_self_eq_true, Option.map_some']
        rfl
      · simp only [signupRequest, hh, List.length_cons, List.length_nil]

/-- C9 on a sample client: the one request sent, written out. -/
theorem request_shape_witness :
    (TrackSignUp refLib (fixedClient resp201) (some sampleCtx) sampleInput).sent =
      [{ ctx := sampleCtx, Method := str "POST",
         URL := str "https://v2.firstpromoter.com/api/v2/track/signup",
         Header := [(str "Authorization", str "Bearer key_1"), (str "Account-Id", str "acct_1"),
           (str "Content-Type", str "application/json")],
         Body := str ("\x7b\x22email\x22:\x22lead@example.com\x22,\x22tid\x22:\x22tid-1\x22," ++
           "\x22skip_email_notification\x22:false\x7d") }] ∧
    (TrackSignUp refLib (New (str "acct_1") (str "key_1") (some ⟨fun _ => .ok resp201⟩))
      (some sampleCtx) sampleInput).sent.length = 1 :=
  ⟨rfl, (request_shape refLib (str "acct_1") (str "key_1") (some ⟨fun _ => .ok resp201⟩)
    (some sampleCtx) sampleInput).2.2.2.2.1 sampleCtx ⟨fun _ => .ok resp201⟩ rfl rfl⟩

/-- C10: the check on the `created_at` parse is inverted. On a response with
a status code in [200, 300) whose body decodes (or is empty), a `created_at`
that parses makes `TrackSignUp` return the error `Error parsing CreatedAt`
and a nil output, and one that does not parse makes it return a nil error and
the output built from the body with the zero `CreatedAt`; so every output
`TrackSignUp` returns, on any call, has the zero `CreatedAt`. -/
theorem createdAt_check_inverted :
    (∀ (lib : StdLib) (client : Client) (k : Context) (input : TrackSignUpInput)
      (c : HttpClient) (resp : Response) (rb : RespBody),
      client.client = some c →
      c.Do (signupRequest lib client k input) = .ok resp →
      (200 ≤ resp.StatusCode ∧ resp.StatusCode < 300) →
      (lib.decode resp.Body = .ok rb ∨ (lib.decode resp.Body = .eof ∧ rb = RespBody.zero)) →
      (∀ t, lib.timeParse rb.CreatedAt = .ok t →
        (TrackSignUp lib client (some k) input).outcome =
          .returned none (some (str "Error parsing CreatedAt"))) ∧
      (∀ e, lib.timeParse rb.CreatedAt = .error e →
        (TrackSignUp lib client (some k) input).outcome =
          .returned (some (outputOf rb Time.zero)) none)) ∧
    (∀ (lib : StdLib) (client : Client) (ctx : Option Context) (input : TrackSignUpInput)
      (out : TrackSignUpOutput) (err : Option GoString),
      (TrackSignUp lib client ctx input).outcome = .returned (some out) err →
      out.CreatedAt = Time.zero) := by
  constructor
  · intro lib client k input c resp rb hc hdo hst hdec
    rw [outcome_of_good_status lib client k input c resp hc hdo hst]
    have h := readResponse_decoded lib resp rb hdec
    constructor
    · intro t ht
      rw [ht] at h
      exact h
    · intro e he
      rw [he] at h
      exact h
  · intro lib client ctx input out err h
    rcases outcome_cases lib client ctx input with ⟨e, he⟩ | hp | ⟨resp, hr⟩
    · rw [he] at h; cases h
    · rw [hp] at h; cases h
    · rw [hr] at h
      exact readResponse_createdAt lib resp out err h

/-- C10 on the two sample responses: the one whose `created_at` parses gives
the error, the one whose `created_at` does not parse gives an output. -/
theorem createdAt_check_inverted_witness :
    (TrackSignUp refLib (fixedClient resp201) (some sampleCtx) sampleInput).outcome =
      .returned none (some (str "Error parsing CreatedAt")) ∧
    (TrackSignUp refLib (fixedClient respNotADate) (some sampleCtx) sampleInput).outcome =
      .returned (some (outputOf { RespBody.zero with Id := 7, CreatedAt := str "not-a-date" }
        Time.zero)) none :=
  ⟨(createdAt_check_inverted.1 refLib (fixedClient resp201) sampleCtx sampleInput
      ⟨fun _ => .ok resp201⟩ resp201 body201 rfl rfl (by decide) (Or.inl rfl)).1
      ⟨63839804645, 0⟩ rfl,
    (createdAt_check_inverted.1 refLib (fixedClient respNotADate) sampleCtx sampleInput
      ⟨fun _ => .ok respNotADate⟩ respNotADate
      { RespBody.zero with Id := 7, CreatedAt := str "not-a-date" } rfl rfl (by decide)
      (Or.inl rfl)).2 (str "parsing time: cannot parse as RFC3339") rfl⟩

end FirstPromoter
